import Mathlib

/-!
Shallow embedding of the MakerWorld resolver/downloader core
(`src/makerworld.ts`, `src/api.ts`, `src/shared.ts`) in Lean 4.

Conventions used throughout:
* JavaScript numbers are modelled as `ℚ` (all payload values in scope are
  exact decimals, so no floating-point rounding is observable).
* JSON values are the inductive `MW.Json`; `JSON.parse` is modelled by a
  fuel-bounded recursive-descent parser with the same acceptance rules.
* `null`/`undefined`-able values are `Option`s; thrown exceptions are the
  error side of `Except`.
* Platform primitives (`new URL`, `JSON.parse`, `decodeURIComponent`,
  `path.extname`, `fetch`) are modelled by explicit executable functions;
  network behaviour is an explicit environment record.
* The process-wide constants `PRINTER_MODEL` and `MAX_UPLOAD_BYTES` (from
  the repository's `constants.ts`) are threaded as explicit parameters.
-/

namespace MW

/-- Character constant: double quote (code 34). -/
def dquote : Char := Char.ofNat 34

/-- Character constant: single quote (code 39). -/
def squote : Char := Char.ofNat 39

/-- Character constant: backslash (code 92). -/
def bslash : Char := Char.ofNat 92

/-- Character constant: left curly brace (code 123). -/
def lbrace : Char := Char.ofNat 123

/-- Character constant: right curly brace (code 125). -/
def rbrace : Char := Char.ofNat 125

/-- Does the character list start with the given segment? -/
def segAt : List Char → List Char → Bool
  | _, [] => true
  | [], _ :: _ => false
  | c :: cs, n :: ns => c = n && segAt cs ns

/-- Does the character list contain the given contiguous segment?
(Model of JavaScript `String.prototype.includes`; the empty needle is
always contained, as in JS.) -/
def hasSeg : List Char → List Char → Bool
  | [], needle => needle.isEmpty
  | c :: cs, needle => segAt (c :: cs) needle || hasSeg cs needle

/-- Model of JavaScript `hay.includes(needle)`. -/
def jsIncludes (hay needle : String) : Bool :=
  hasSeg hay.toList needle.toList

/-- ASCII model of `String.prototype.toLowerCase`, built character by
character so it evaluates by kernel reduction (the payload strings in scope
are ASCII). -/
def jsToLower (s : String) : String :=
  String.mk (s.toList.map Char.toLower)

/-- Model of `String.prototype.trim`: strip leading and trailing
whitespace. -/
def jsTrim (s : String) : String :=
  String.mk (((s.toList.dropWhile Char.isWhitespace).reverse.dropWhile
    Char.isWhitespace).reverse)

/-- Model of `String.prototype.endsWith`. -/
def jsEndsWith (s ending : String) : Bool :=
  segAt s.toList.reverse ending.toList.reverse

/-- Does the (already lowercased) key contain any of the hint tokens?
Mirrors `hints.some((hint) => normalized.includes(hint))`. -/
def keyMatchesAnyHint (normalizedKey : String) (hints : List String) : Bool :=
  hints.any (fun h => jsIncludes normalizedKey h)

/-- Numeric value of a decimal digit list (most significant first). -/
def digitsToNat (ds : List Char) : Nat :=
  ds.foldl (fun acc c => acc * 10 + (c.toNat - 48)) 0

/-- Rational from integer digits and (possibly empty) fraction digits. -/
def ratOfDigits (intDs fracDs : List Char) : ℚ :=
  (digitsToNat intDs : ℚ) + (digitsToNat fracDs : ℚ) / ((10 : ℚ) ^ fracDs.length)

/-- Split off the leading run of decimal digits. -/
def takeDigits : List Char → (List Char × List Char)
  | [] => ([], [])
  | c :: cs =>
    if c.isDigit then
      let (ds, rest) := takeDigits cs
      (c :: ds, rest)
    else ([], c :: cs)

/-- Try to match the JS regex `-?\d+(?:\.\d+)?` anchored at the head of the
character list, returning the matched value. -/
def scanJsNumberAt (cs : List Char) : Option ℚ :=
  let (neg, cs1) :=
    match cs with
    | c :: rest => if c = '-' then (true, rest) else (false, cs)
    | [] => (false, cs)
  let (intDs, rest1) := takeDigits cs1
  if intDs.isEmpty then none
  else
    match rest1 with
    | c :: rest2 =>
      if c = '.' then
        let (fracDs, _) := takeDigits rest2
        if fracDs.isEmpty then
          some (if neg then -(ratOfDigits intDs []) else ratOfDigits intDs [])
        else
          some (if neg then -(ratOfDigits intDs fracDs) else ratOfDigits intDs fracDs)
      else some (if neg then -(ratOfDigits intDs []) else ratOfDigits intDs [])
    | [] => some (if neg then -(ratOfDigits intDs []) else ratOfDigits intDs [])

/-- First match of the JS regex `-?\d+(?:\.\d+)?` anywhere in the list
(the regex engine tries successive start positions). -/
def scanJsNumber : List Char → Option ℚ
  | [] => none
  | c :: cs =>
    match scanJsNumberAt (c :: cs) with
    | some q => some q
    | none => scanJsNumber cs

/-- JSON-like values (`JsonLike` trees) as produced by `JSON.parse` or
object literals: objects keep field insertion order. -/
inductive Json where
  | null : Json
  | bool (b : Bool) : Json
  | num (q : ℚ) : Json
  | str (s : String) : Json
  | arr (items : List Json) : Json
  | obj (fields : List (String × Json)) : Json

/-- Is the value a plain (non-array) object?  Mirrors `isRecord`. -/
def isRecord : Json → Bool
  | .obj _ => true
  | _ => false

/-- Is the value a truthy object in the JS sense
(`!!item && typeof item === "object"`): array or plain object. -/
def isObjectLike : Json → Bool
  | .obj _ => true
  | .arr _ => true
  | _ => false

/-- Field lookup on a JSON object (first binding wins, as a parsed JSON
object has no duplicate keys in scope); `undefined` is `none`. -/
def objGet (fields : List (String × Json)) (key : String) : Option Json :=
  match fields.find? (fun kv => kv.1 = key) with
  | some kv => some kv.2
  | none => none

/-- Model of `parseFloatFromUnknown`: finite numbers pass through, strings
are scanned for the first `-?\d+(?:\.\d+)?` match, all else is `null`. -/
def parseFloatFromUnknown : Json → Option ℚ
  | .num q => some q
  | .str s => scanJsNumber s.toList
  | _ => none

/-- One BFS queue entry of `visitNodes`: the key the value sits under, the
value, and the parent container (if any). -/
structure VisitEntry where
  key : String
  value : Json
  parent : Option Json

/-- Children pushed by `visitNodes` for one dequeued entry: array items are
enqueued under the parent entry's key, object fields under their own key. -/
def visitChildren (e : VisitEntry) : List VisitEntry :=
  match e.value with
  | .arr items => items.map (fun item => ⟨e.key, item, some e.value⟩)
  | .obj fields => fields.map (fun kv => ⟨kv.1, kv.2, some e.value⟩)
  | _ => []

/-- Breadth-first traversal loop of `visitNodes`, emitting entries in visit
order, bounded by the node budget.  The JS version also keeps a visited set
of object identities; inputs produced by `JSON.parse` or object literals
are trees, so every object identity is fresh and the set never suppresses a
node — it is therefore omitted here. -/
def bfsEntries : Nat → List VisitEntry → List VisitEntry
  | 0, _ => []
  | _ + 1, [] => []
  | n + 1, e :: queue => e :: bfsEntries n (queue ++ visitChildren e)

/-- Model of `visitNodes` with the default `maxNodes = 1500`: the list of
visited `(key, value, parent)` entries in visitation order. -/
def visitEntries (input : Json) : List VisitEntry :=
  bfsEntries 1500 [⟨"", input, none⟩]

/-- Model of `findStringByHints`: first non-empty trimmed string under a
hint-matching key. -/
def findStringByHints (input : Json) (hints : List String) : Option String :=
  (visitEntries input).findSome? fun e =>
    match e.value with
    | .str s =>
      if keyMatchesAnyHint (jsToLower e.key) hints && jsTrim s ≠ "" then some (jsTrim s) else none
    | _ => none

/-- Model of `findBooleanByHints`: first key-matching boolean, or string
spelling of one.  A `"false"/"no"/"off"` string locks in `false` exactly as
the JS assignment does. -/
def findBooleanByHints (input : Json) (hints : List String) : Option Bool :=
  (visitEntries input).findSome? fun e =>
    if keyMatchesAnyHint (jsToLower e.key) hints then
      match e.value with
      | .bool b => some b
      | .str s =>
        let lowered := jsToLower (jsTrim s)
        if lowered = "true" ∨ lowered = "yes" ∨ lowered = "on" then some true
        else if lowered = "false" ∨ lowered = "no" ∨ lowered = "off" then some false
        else none
      | _ => none
    else none

/-- Model of `findNumberByHints`: first key-matching value parseable as a
finite number. -/
def findNumberByHints (input : Json) (hints : List String) : Option ℚ :=
  (visitEntries input).findSome? fun e =>
    if keyMatchesAnyHint (jsToLower e.key) hints then parseFloatFromUnknown e.value else none

/-- Key substrings that `findDurationByHints` rejects as timestamp-like. -/
def durationIgnoreSubstrings : List String :=
  ["create", "update", "modify", "upload", "download", "publish", "release",
   "expire", "timestamp", "timezone", "date", "gmt", "utc"]

/-- Model of the anchored JS regex `^(\d{1,2}):(\d{1,2})(?::(\d{1,2}))?$`
on a trimmed string, returning hours. -/
def parseHmsPattern (cs : List Char) : Option ℚ :=
  let (hDs, rest1) := takeDigits cs
  if hDs.length = 0 ∨ 2 < hDs.length then none
  else
    match rest1 with
    | c :: rest2 =>
      if c = ':' then
        let (mDs, rest3) := takeDigits rest2
        if mDs.length = 0 ∨ 2 < mDs.length then none
        else
          match rest3 with
          | [] => some ((digitsToNat hDs : ℚ) + (digitsToNat mDs : ℚ) / 60)
          | c2 :: rest4 =>
            if c2 = ':' then
              let (sDs, rest5) := takeDigits rest4
              if sDs.length = 0 ∨ 2 < sDs.length ∨ ¬ rest5.isEmpty then none
              else some ((digitsToNat hDs : ℚ) + (digitsToNat mDs : ℚ) / 60 +
                (digitsToNat sDs : ℚ) / 3600)
            else none
      else none
    | [] => none

/-- Match the JS regex `(\d+(?:\.\d+)?)\s*X` (case-insensitive in `X`)
anchored at the head: a number, optional whitespace, then the unit letter. -/
def scanNumBeforeLetterAt (cs : List Char) (letter : Char) : Option ℚ :=
  let (intDs, rest1) := takeDigits cs
  if intDs.isEmpty then none
  else
    let (fracDs, rest2) :=
      match rest1 with
      | c :: rest =>
        if c = '.' then
          let (ds, r) := takeDigits rest
          if ds.isEmpty then (([] : List Char), rest1) else (ds, r)
        else (([] : List Char), rest1)
      | [] => (([] : List Char), rest1)
    let afterWs := rest2.dropWhile (fun c => c.isWhitespace)
    match afterWs with
    | c :: _ => if c.toLower = letter then some (ratOfDigits intDs fracDs) else none
    | [] => none

/-- First match of `(\d+(?:\.\d+)?)\s*X` anywhere in the list. -/
def scanNumBeforeLetter : List Char → Char → Option ℚ
  | [], _ => none
  | c :: cs, letter =>
    match scanNumBeforeLetterAt (c :: cs) letter with
    | some q => some q
    | none => scanNumBeforeLetter cs letter

/-- Model of `parseDurationHours`: positive numbers via the magnitude
heuristic (≤ 72 hours, ≤ 7200 minutes, else seconds); strings via the
`HH:MM:SS` pattern, `"Nh Mm Ns"` unit letters, or a bare number with the
same magnitude heuristic. -/
def parseDurationHours : Json → Option ℚ
  | .num q =>
    if 0 < q then
      if q ≤ 72 then some q
      else if q ≤ 7200 then some (q / 60)
      else some (q / 3600)
    else none
  | .str s =>
    let trimmed := jsTrim s
    if trimmed = "" then none
    else
      match parseHmsPattern trimmed.toList with
      | some hours => some hours
      | none =>
        let hourMatch := scanNumBeforeLetter trimmed.toList 'h'
        let minuteMatch := scanNumBeforeLetter trimmed.toList 'm'
        let secondMatch := scanNumBeforeLetter trimmed.toList 's'
        if hourMatch.isSome ∨ minuteMatch.isSome ∨ secondMatch.isSome then
          let total := hourMatch.getD 0 + minuteMatch.getD 0 / 60 + secondMatch.getD 0 / 3600
          if 0 < total then some total else none
        else
          match scanJsNumber trimmed.toList with
          | none => none
          | some numeric =>
            if numeric ≤ 0 then none
            else if numeric ≤ 72 then some numeric
            else if numeric ≤ 7200 then some (numeric / 60)
            else some (numeric / 3600)
  | _ => none

/-- The millisecond-unit key test of `parseDurationHoursByKey`. -/
def msKeyToken (normalized : String) : Bool :=
  jsIncludes normalized "ms" || jsIncludes normalized "millisecond"

/-- The second-unit key test of `parseDurationHoursByKey`. -/
def secondsKeyToken (normalized : String) : Bool :=
  jsIncludes normalized "second" || jsIncludes normalized "sec" ||
  jsIncludes normalized "prediction" || jsIncludes normalized "printtime" ||
  jsIncludes normalized "print_time" || jsIncludes normalized "costtime" ||
  jsIncludes normalized "consumetime" || jsIncludes normalized "duration"

/-- The minute-unit key test of `parseDurationHoursByKey`. -/
def minutesKeyToken (normalized : String) : Bool :=
  jsIncludes normalized "minute" || jsIncludes normalized "min"

/-- The hour-unit key test of `parseDurationHoursByKey`. -/
def hoursKeyToken (normalized : String) : Bool :=
  jsIncludes normalized "hour" || jsIncludes normalized "hr"

/-- Model of `parseDurationHoursByKey`: for positive numeric values the key
decides the unit (`ms`-keys are milliseconds, second-family keys seconds,
minute-keys minutes, hour-keys hours); everything else falls back to
`parseDurationHours`. -/
def parseDurationHoursByKey (key : String) (value : Json) : Option ℚ :=
  let normalized := jsToLower key
  match value with
  | .num q =>
    if 0 < q then
      if msKeyToken normalized then some (q / 3600000)
      else if secondsKeyToken normalized then some (q / 3600)
      else if minutesKeyToken normalized then some (q / 60)
      else if hoursKeyToken normalized then some q
      else parseDurationHours value
    else parseDurationHours value
  | _ => parseDurationHours value

/-- Model of `findDurationByHints`: hint-matching, timestamp-excluded keys
interpreted by `parseDurationHoursByKey`. -/
def findDurationByHints (input : Json) (hints : List String) : Option ℚ :=
  (visitEntries input).findSome? fun e =>
    let normalized := jsToLower e.key
    if keyMatchesAnyHint normalized hints &&
        ¬ durationIgnoreSubstrings.any (fun token => jsIncludes normalized token) then
      parseDurationHoursByKey normalized e.value
    else none

/-- JavaScript `Math.trunc` on a rational. -/
def jsTrunc (q : ℚ) : Int :=
  if 0 ≤ q then q.floor else q.ceil

/-- Model of `findIntegerByHints`: the number-finder truncated to a
positive integer, else `null`. -/
def findIntegerByHints (input : Json) (hints : List String) : Option Nat :=
  match findNumberByHints input hints with
  | none => none
  | some q =>
    let rounded := jsTrunc q
    if 0 < rounded then some rounded.toNat else none

/-- Model of `findArrayByKeyHint`: among arrays under hint-matching keys,
the object-typed elements of the one with the most object-typed elements
(strictly-improving scan in visitation order). -/
def findArrayByKeyHint (input : Json) (hints : List String) : List Json :=
  (visitEntries input).foldl
    (fun best e =>
      match e.value with
      | .arr items =>
        if keyMatchesAnyHint (jsToLower e.key) hints then
          let objectItems := items.filter isObjectLike
          if best.length < objectItems.length then objectItems else best
        else best
      | _ => best)
    []

/-- Worker of the first-occurrence de-duplication, carrying the values
already emitted. -/
def dedupListGo (seen : List String) : List String → List String
  | [] => []
  | x :: xs =>
    if x ∈ seen then dedupListGo seen xs
    else x :: dedupListGo (x :: seen) xs

/-- De-duplication preserving first occurrences: model of
`[...new Set(list)]` on strings. -/
def dedupList (l : List String) : List String :=
  dedupListGo [] l

/-- Membership in the de-duplication worker. -/
theorem mem_dedupListGo (a : String) :
    ∀ (l seen : List String), a ∈ dedupListGo seen l ↔ (a ∈ l ∧ a ∉ seen)
  | [], seen => by simp [dedupListGo]
  | x :: xs, seen => by
    rw [dedupListGo]
    by_cases hx : x ∈ seen
    · rw [if_pos hx, mem_dedupListGo a xs seen]
      constructor
      · rintro ⟨h1, h2⟩
        exact ⟨List.mem_cons_of_mem x h1, h2⟩
      · rintro ⟨h1, h2⟩
        rcases List.mem_cons.mp h1 with rfl | h1
        · exact absurd hx h2
        · exact ⟨h1, h2⟩
    · rw [if_neg hx]
      by_cases hax : a = x
      · subst hax
        simp [hx]
      · simp only [List.mem_cons, hax, false_or]
        rw [mem_dedupListGo a xs (x :: seen)]
        simp [hax]

/-- Membership is unchanged by de-duplication. -/
theorem mem_dedupList (a : String) (l : List String) : a ∈ dedupList l ↔ a ∈ l := by
  rw [dedupList, mem_dedupListGo]
  simp

/-- Parsed URL: model of the WHATWG `URL` object for the URL shapes this
module handles (`scheme://[userinfo@]host[:port]/path?search#fragment`).
`scheme` and `host` are stored lowercased; `search` keeps its leading `?`;
`fragment` is stored without its leading `#` (the JS `hash` property is
`"#" ++ fragment` when the fragment is non-empty). -/
structure UrlModel where
  scheme : String
  host : String
  port : String
  path : String
  search : String
  fragment : String
deriving DecidableEq

/-- Split a character list at the first occurrence of any stop character:
returns the segment before it and the remainder starting with it. -/
def splitAtFirst : List Char → List Char → (List Char × List Char)
  | [], _ => ([], [])
  | c :: cs, stops =>
    if c ∈ stops then ([], c :: cs)
    else
      let (before, rest) := splitAtFirst cs stops
      (c :: before, rest)

/-- Drop the userinfo part (through the last `@`) of an authority: the
characters after the last `@`, or the whole list when none occurs. -/
def dropUserinfo (cs : List Char) : List Char :=
  (cs.reverse.takeWhile (fun c => c ≠ '@')).reverse

/-- Is the character an allowed URL scheme character (after the first)? -/
def isSchemeChar (c : Char) : Bool :=
  c.isAlphanum || c = '+' || c = '-' || c = '.'

/-- Model of `new URL(input)` for absolute `scheme://...` URLs; `none`
models the constructor throwing `TypeError`. -/
def parseUrl (input : String) : Option UrlModel :=
  let cs := (jsTrim input).toList
  let (schemeCs, rest0) := splitAtFirst cs [':']
  if schemeCs.isEmpty then none
  else if ¬ (schemeCs.headD 'x').isAlpha then none
  else if ¬ schemeCs.all isSchemeChar then none
  else
    match rest0 with
    | ':' :: '/' :: '/' :: rest1 =>
      let (authCs, rest2) := splitAtFirst rest1 ['/', '?', '#']
      let hostPort := dropUserinfo authCs
      let (hostCs, portRest) := splitAtFirst hostPort [':']
      if hostCs.isEmpty then none
      else
        let host := jsToLower (String.mk hostCs)
        let port0 :=
          match portRest with
          | ':' :: p => String.mk p
          | _ => ""
        let scheme := jsToLower (String.mk schemeCs)
        let port :=
          if (scheme = "https" ∧ port0 = "443") ∨ (scheme = "http" ∧ port0 = "80") then ""
          else port0
        let (pathCs, rest3) :=
          match rest2 with
          | '/' :: _ => splitAtFirst rest2 ['?', '#']
          | _ => ([], rest2)
        let (searchCs, hashRest) :=
          match rest3 with
          | '?' :: qs =>
            let (q, r) := splitAtFirst qs ['#']
            ('?' :: q, r)
          | _ => ([], rest3)
        let fragment :=
          match hashRest with
          | '#' :: f => String.mk f
          | _ => ""
        some
          { scheme := scheme
            host := host
            port := port
            path := if pathCs.isEmpty then "/" else String.mk pathCs
            search := String.mk searchCs
            fragment := fragment }
    | _ => none

/-- Model of `URL.prototype.toString` (the `href` serialisation). -/
def urlToString (u : UrlModel) : String :=
  u.scheme ++ "://" ++ u.host ++ (if u.port = "" then "" else ":" ++ u.port) ++
    u.path ++ u.search ++ (if u.fragment = "" then "" else "#" ++ u.fragment)

/-- The JS `URL.protocol` property (scheme with trailing colon). -/
def urlProtocol (u : UrlModel) : String := u.scheme ++ ":"

/-- Hexadecimal digit value. -/
def hexVal (c : Char) : Option Nat :=
  if c.isDigit then some (c.toNat - 48)
  else
    let l := c.toLower
    if 'a' ≤ l ∧ l ≤ 'f' then some (l.toNat - 97 + 10) else none

/-- UTF-8 encoding of one character, as byte values. -/
def charUtf8Bytes (c : Char) : List Nat :=
  let n := c.toNat
  if n < 0x80 then [n]
  else if n < 0x800 then [0xC0 + n / 64, 0x80 + n % 64]
  else if n < 0x10000 then [0xE0 + n / 4096, 0x80 + n / 64 % 64, 0x80 + n % 64]
  else [0xF0 + n / 262144, 0x80 + n / 4096 % 64, 0x80 + n / 64 % 64, 0x80 + n % 64]

/-- Percent-decode a character list into byte values; `none` models a
malformed `%` escape (which makes `decodeURIComponent` throw). -/
def pctBytes : List Char → Option (List Nat)
  | [] => some []
  | c :: cs =>
    if c = '%' then
      match cs with
      | h1 :: h2 :: rest => do
        let a ← hexVal h1
        let b ← hexVal h2
        let r ← pctBytes rest
        pure ((16 * a + b) :: r)
      | _ => none
    else do
      let r ← pctBytes cs
      pure (charUtf8Bytes c ++ r)

/-- Is the byte a UTF-8 continuation byte? -/
def isContinuationByte (b : Nat) : Bool := 0x80 ≤ b ∧ b < 0xC0

/-- Decode a UTF-8 byte list; `none` models invalid UTF-8 (which makes
`decodeURIComponent` throw `URIError`). -/
def utf8Decode : List Nat → Option (List Char)
  | [] => some []
  | b :: bs =>
    if b < 0x80 then do
      let r ← utf8Decode bs
      pure (Char.ofNat b :: r)
    else if 0xC2 ≤ b ∧ b < 0xE0 then
      match bs with
      | c1 :: rest =>
        if isContinuationByte c1 then do
          let r ← utf8Decode rest
          pure (Char.ofNat ((b - 0xC0) * 64 + (c1 - 0x80)) :: r)
        else none
      | _ => none
    else if 0xE0 ≤ b ∧ b < 0xF0 then
      match bs with
      | c1 :: c2 :: rest =>
        if isContinuationByte c1 ∧ isContinuationByte c2 then
          let cp := (b - 0xE0) * 4096 + (c1 - 0x80) * 64 + (c2 - 0x80)
          if 0x800 ≤ cp ∧ ¬ (0xD800 ≤ cp ∧ cp ≤ 0xDFFF) then do
            let r ← utf8Decode rest
            pure (Char.ofNat cp :: r)
          else none
        else none
      | _ => none
    else if 0xF0 ≤ b ∧ b < 0xF5 then
      match bs with
      | c1 :: c2 :: c3 :: rest =>
        if isContinuationByte c1 ∧ isContinuationByte c2 ∧ isContinuationByte c3 then
          let cp := (b - 0xF0) * 262144 + (c1 - 0x80) * 4096 + (c2 - 0x80) * 64 + (c3 - 0x80)
          if 0x10000 ≤ cp ∧ cp ≤ 0x10FFFF then do
            let r ← utf8Decode rest
            pure (Char.ofNat cp :: r)
          else none
        else none
      | _ => none
    else none

/-- Model of `decodeURIComponent`; `none` models the thrown `URIError`. -/
def jsDecodeURIComponent (s : String) : Option String := do
  let bytes ← pctBytes s.toList
  let chars ← utf8Decode bytes
  pure (String.mk chars)

/-- Strip trailing slashes (Node `path.basename` ignores them). -/
def stripTrailingSlashes (cs : List Char) : List Char :=
  (cs.reverse.dropWhile (fun c => c = '/')).reverse

/-- Model of Node `path.basename`: the final path segment. -/
def basenameOf (p : String) : String :=
  let cs := stripTrailingSlashes p.toList
  String.mk (cs.reverse.takeWhile (fun c => c ≠ '/')).reverse

/-- Index of the last occurrence of a character, if any. -/
def lastIdxOf (cs : List Char) (c : Char) : Option Nat :=
  match cs.reverse.findIdx? (fun x => x = c) with
  | none => none
  | some i => some (cs.length - 1 - i)

/-- Model of Node `path.extname`: the extension of the basename including
its dot, empty when the only dot leads the basename or there is none. -/
def extnameOf (p : String) : String :=
  let b := (basenameOf p).toList
  if b = ['.'] ∨ b = ['.', '.'] then ""
  else
    match lastIdxOf b '.' with
    | none => ""
    | some 0 => ""
    | some i => String.mk (b.drop i)

/-- Model of `fileNameFromDownloadUrl`: decoded basename of the URL path,
with `"makerworld-model"` as the fallback for unparseable URLs, decoding
errors, or an empty basename. -/
def fileNameFromDownloadUrl (url : String) : String :=
  match parseUrl url with
  | none => "makerworld-model"
  | some u =>
    match jsDecodeURIComponent (basenameOf u.path) with
    | none => "makerworld-model"
    | some candidate => if candidate = "" then "makerworld-model" else candidate

/-- Word character for the JS `\b` boundary ( `[A-Za-z0-9_]` ). -/
def isWordChar (c : Char) : Bool :=
  c.isAlphanum || c = '_'

/-- Is there a word boundary before the given remainder? (true when the
remainder is empty or starts with a non-word character). -/
def boundaryAt : List Char → Bool
  | [] => true
  | c :: _ => ¬ isWordChar c

/-- Match one alternative of `DOWNLOAD_HINT_PATTERN` at the head of an
already-lowercased character list. -/
def downloadHintAt (cs : List Char) : Bool :=
  segAt cs "download".toList || segAt cs "asset".toList ||
  segAt cs "attachment".toList || segAt cs "file=".toList ||
  (segAt cs "/files".toList && boundaryAt (cs.drop 6)) ||
  (segAt cs "/file".toList && boundaryAt (cs.drop 5)) ||
  (segAt cs ".stl".toList && boundaryAt (cs.drop 4)) ||
  (segAt cs ".obj".toList && boundaryAt (cs.drop 4)) ||
  (segAt cs ".3mf".toList && boundaryAt (cs.drop 4))

/-- Model of `DOWNLOAD_HINT_PATTERN.test`: the case-insensitive pattern
`(download|asset|attachment|file=|\/files?\b|\.stl\b|\.obj\b|\.3mf\b)`
matching anywhere in the string. -/
def downloadHintTest (s : String) : Bool :=
  (((jsToLower s).toList).tails.any downloadHintAt)

/-- Model of `value.replace(/\\\//g, "/")`: collapse escaped slashes. -/
def replEscapedSlash : List Char → List Char
  | [] => []
  | c :: cs =>
    if c = bslash then
      match cs with
      | d :: rest =>
        if d = '/' then '/' :: replEscapedSlash rest else c :: replEscapedSlash (d :: rest)
      | [] => [c]
    else c :: replEscapedSlash cs

/-- Character class `[^\s"'<>]` of the URL-harvesting regex. -/
def isUrlBodyChar (c : Char) : Bool :=
  ¬ (c.isWhitespace || c = dquote || c = squote || c = '<' || c = '>')

/-- Try to match `https?:\/\/[^\s"'<>]+` at the head (case-insensitive
scheme); returns the matched text and the remainder after it. -/
def urlMatchAt (cs : List Char) : Option (List Char × List Char) :=
  let lower := cs.map Char.toLower
  let afterScheme : Option Nat :=
    if segAt lower "https://".toList then some 8
    else if segAt lower "http://".toList then some 7
    else none
  match afterScheme with
  | none => none
  | some n =>
    let body := (cs.drop n).takeWhile isUrlBodyChar
    if body.isEmpty then none
    else some (cs.take n ++ body, cs.drop (n + body.length))

/-- Matching loop of the global regex `https?:\/\/[^\s"'<>]+/gi`: scan
left to right, resuming after each match.  Each step consumes at least one
character, so a fuel of the input length is exact, never truncating. -/
def collectUrlMatchesFuel : Nat → List Char → List String
  | 0, _ => []
  | _ + 1, [] => []
  | fuel + 1, c :: cs =>
    match urlMatchAt (c :: cs) with
    | some (m, rest) => String.mk m :: collectUrlMatchesFuel fuel rest
    | none => collectUrlMatchesFuel fuel cs

/-- All matches of `https?:\/\/[^\s"'<>]+/gi` in the character list. -/
def collectUrlMatches (cs : List Char) : List String :=
  collectUrlMatchesFuel cs.length cs

/-- Model of `normalizePrinterName`: lowercase, strip non-alphanumerics,
then map known family tokens to canonical ids (token order as in source). -/
def normalizePrinterName (input : String) : String :=
  let normalized : String :=
    String.mk ((jsToLower input).toList.filter (fun c => ('a' ≤ c ∧ c ≤ 'z') ∨ c.isDigit))
  if jsIncludes normalized "p2s" then "bambulabp2s"
  else if jsIncludes normalized "p1s" then "bambulabp1s"
  else if jsIncludes normalized "p1p" then "bambulabp1p"
  else if jsIncludes normalized "x1c" ∨ jsIncludes normalized "x1carbon" then "bambulabx1c"
  else if jsIncludes normalized "a1mini" then "bambulaba1mini"
  else if jsIncludes normalized "a1" then "bambulaba1"
  else normalized

/-- The fixed core-XY cluster of mutually compatible printer families. -/
def corexyCluster : List String :=
  ["bambulabp2s", "bambulabp1s", "bambulabp1p", "bambulabx1c", "bambulabx1carbon"]

/-- Model of `getCompatibleNormalizedPrinters`: the configured printer's
canonical id, expanded to the whole core-XY cluster when it belongs to it
(insertion-ordered set). -/
def getCompatibleNormalizedPrinters (configuredPrinter : String) : List String :=
  let normalized := normalizePrinterName configuredPrinter
  if normalized ∈ corexyCluster then
    normalized :: corexyCluster.filter (fun x => x ≠ normalized)
  else [normalized]

/-- Model of `isCompatiblePrinterName`: exact alias match, or substring
containment in either direction; an empty canonical candidate never
matches. -/
def isCompatiblePrinterName (candidatePrinter configuredPrinter : String) : Bool :=
  let compatible := getCompatibleNormalizedPrinters configuredPrinter
  let normalizedCandidate := normalizePrinterName candidatePrinter
  if normalizedCandidate = "" then false
  else if normalizedCandidate ∈ compatible then true
  else compatible.any (fun al =>
    jsIncludes normalizedCandidate al || jsIncludes al normalizedCandidate)

/-- The locked material union type (`types.ts`). -/
inductive Material where
  | PLA : Material
  | PETG : Material
  | otherRequest : Material
deriving DecidableEq

/-- Model of `mapMakerWorldMaterial`. -/
def mapMakerWorldMaterial (raw : String) : Material :=
  let normalized := jsToLower raw
  if jsIncludes normalized "petg" then .PETG
  else if jsIncludes normalized "pla" then .PLA
  else .otherRequest

/-- Model of `Number(x.toFixed(digits))` for the non-negative rationals the
source applies it to (ties round half away from zero). -/
def jsToFixed (digits : Nat) (q : ℚ) : ℚ :=
  ((round (q * (10 : ℚ) ^ digits) : ℤ) : ℚ) / (10 : ℚ) ^ digits

/-- Model of `collectUrlCandidates`: every `http(s)://...` match inside any
string value of the tree, plus root-relative paths that carry a download
hint, prefixed with the upstream origin; de-duplicated in first-seen
order. -/
def collectUrlCandidates (input : Json) : List String :=
  dedupList <|
    (visitEntries input).foldl
      (fun acc e =>
        match e.value with
        | .str s =>
          let raw := jsTrim s
          if raw = "" then acc
          else
            let decoded := replEscapedSlash raw.toList
            let fromMatches := collectUrlMatches decoded
            let rooted :=
              if decoded.headD ' ' = '/' ∧ downloadHintTest (String.mk decoded) then
                ["https://makerworld.com" ++ String.mk decoded]
              else []
            acc ++ fromMatches ++ rooted
        | _ => acc)
      []

/-- Model of `chooseDownloadUrl`: the first URL candidate whose path and
query carry a download hint, serialised through the URL parser. -/
def chooseDownloadUrl (input : Json) : Option String :=
  (collectUrlCandidates input).findSome? fun candidate =>
    match parseUrl candidate with
    | none => none
    | some parsed =>
      if downloadHintTest (parsed.path ++ parsed.search) then some (urlToString parsed)
      else none

/-- Model of `extractModelTitle`. -/
def extractModelTitle (payload : Json) : String :=
  let title :=
    match findStringByHints payload ["title", "designtitle", "modeltitle"] with
    | some t => some t
    | none => findStringByHints payload ["name", "displayname"]
  match title with
  | some t => if t.length > 0 then t else "MakerWorld model"
  | none => "MakerWorld model"

/-- Hint tokens used for per-plate and direct duration extraction. -/
def plateDurationHints : List String :=
  ["prediction", "estimate", "estimated", "printtime", "print_time", "duration",
   "costtime", "consumetime"]

/-- Hint tokens for direct duration extraction on the whole node. -/
def directDurationHints : List String :=
  ["prediction", "estimate", "estimated", "estimatedhours", "printtimehours",
   "print_time_hours", "print_time", "printtime", "duration", "costtime",
   "consumetime", "elapsed"]

/-- Model of `extractEstimatedHours`: sum of positive per-plate durations
when present, else the first direct positive duration; rounded to 4
decimals. -/
def extractEstimatedHours (node : Json) : Option ℚ :=
  let fromPlates :=
    ((findArrayByKeyHint node ["plates"]).map
      (fun entry => findDurationByHints entry plateDurationHints)).foldl
      (fun sum v =>
        match v with
        | some q => if 0 < q then sum + q else sum
        | none => sum)
      0
  if 0 < fromPlates then some (jsToFixed 4 fromPlates)
  else
    match findDurationByHints node directDurationHints with
    | some d => if 0 < d then some (jsToFixed 4 d) else none
    | none => none

/-- Model of `extractEstimatedGrams`: sum of positive per-plate weights
when present, else the first direct positive weight; rounded to 4
decimals. -/
def extractEstimatedGrams (node : Json) : Option ℚ :=
  let fromPlates :=
    ((findArrayByKeyHint node ["plates"]).map
      (fun entry => findNumberByHints entry ["weight", "grams", "filament"])).foldl
      (fun sum v =>
        match v with
        | some q => if 0 < q then sum + q else sum
        | none => sum)
      0
  if 0 < fromPlates then some (jsToFixed 4 fromPlates)
  else
    match findNumberByHints node
        ["estimatedweight", "filamentweight", "materialweight", "grams", "weight", "filament"] with
    | some d => if 0 < d then some (jsToFixed 4 d) else none
    | none => none

/-- The known printer-name keys consulted on compatibility entries
(`byKnownKeys` in `extractPrinter`, in source order). -/
def knownCompatibilityKeys : List String :=
  ["devProductName", "productName", "printerName", "machineName", "modelName",
   "name", "devModelName"]

/-- Model of `addCompatibilityEntry`: trimmed string entries, or the known
printer-name fields of a record entry. -/
def addCompatibilityEntry (entry : Json) : List String :=
  match entry with
  | .str s => if jsTrim s ≠ "" then [jsTrim s] else []
  | .obj fields =>
    knownCompatibilityKeys.filterMap fun k =>
      match objGet fields k with
      | some (.str v) => if jsTrim v ≠ "" then some (jsTrim v) else none
      | _ => none
  | _ => []

/-- Model of `extractPrinter`: compatibility-array names preferred (exact
configured match first, then any compatible, then the first listed); else
direct printer-name hints; else `"unknown"`. -/
def extractPrinter (configuredPrinter : String) (node : Json) : String :=
  let fromArray :=
    (findArrayByKeyHint node ["compatibility", "othercompatibility"]).flatMap
      addCompatibilityEntry
  let fromRecords :=
    (visitEntries node).foldl
      (fun acc e =>
        if isRecord e.value ∧
            (jsIncludes (jsToLower e.key) "compatibility" ∨
              jsIncludes (jsToLower e.key) "othercompatibility") then
          acc ++ addCompatibilityEntry e.value
        else acc)
      []
  let compatibilityValues := fromArray ++ fromRecords
  if compatibilityValues.isEmpty then
    match findStringByHints node
        ["printername", "printer_model", "printer", "machine", "device",
         "productname", "modelname", "devproductname", "devmodelname"] with
    | some direct => direct
    | none => "unknown"
  else
    let configured := normalizePrinterName configuredPrinter
    match compatibilityValues.find? (fun v => normalizePrinterName v = configured) with
    | some exact => exact
    | none =>
      match compatibilityValues.find?
          (fun v => isCompatiblePrinterName v configuredPrinter) with
      | some preferred => preferred
      | none => compatibilityValues.headD "unknown"

/-- Model of `extractMaterial`. -/
def extractMaterial (node : Json) : String :=
  match findStringByHints node ["material", "filament", "filamentname", "materialname"] with
  | some direct => direct
  | none => "unknown"

/-- Model of `MakerWorldSettingsSummary` (all fields optional). -/
structure MakerWorldSettingsSummary where
  layerHeightMm : Option ℚ := none
  nozzleMm : Option ℚ := none
  infillPercent : Option ℚ := none
  supportEnabled : Option Bool := none
  wallLoops : Option ℚ := none
  speedProfile : Option String := none
  filamentProfile : Option String := none
deriving DecidableEq

/-- The empty settings summary (`{}`). -/
def emptySettingsSummary : MakerWorldSettingsSummary := {}

/-- Does the summary have at least one key
(`Object.keys(summary).length > 0`)? -/
def settingsSummaryNonEmpty (s : MakerWorldSettingsSummary) : Bool :=
  s ≠ emptySettingsSummary

/-- Model of `extractSettingsSummary`. -/
def extractSettingsSummary (node : Json) : MakerWorldSettingsSummary :=
  let layerHeight := findNumberByHints node ["layerheight", "layer_height"]
  let nozzle := findNumberByHints node ["nozzle", "nozzlediameter"]
  let infill := findNumberByHints node ["infill", "filldensity"]
  let wallLoops := findNumberByHints node ["wallloop", "wall_loops", "walls"]
  let support := findBooleanByHints node ["support"]
  let speedProfile := findStringByHints node ["speedprofile", "speed_profile"]
  let filamentProfile := findStringByHints node ["filamentprofile", "filament_profile"]
  { layerHeightMm := layerHeight.bind (fun q => if 0 < q then some (jsToFixed 4 q) else none)
    nozzleMm := nozzle.bind (fun q => if 0 < q then some (jsToFixed 4 q) else none)
    infillPercent := infill.bind (fun q => if 0 < q then some (jsToFixed 2 q) else none)
    supportEnabled := support
    wallLoops := wallLoops.bind (fun q => if 0 < q then some (jsToFixed 2 q) else none)
    speedProfile := speedProfile
    filamentProfile := filamentProfile }

/-- One candidate print profile/variant (`VariantCandidate`). -/
structure VariantCandidate where
  variantId : Option Nat
  profileId : Option Nat
  name : String
  printer : String
  material : String
  estimatedHours : Option ℚ
  estimatedGrams : Option ℚ
  payload : Json
  settingsSummary : MakerWorldSettingsSummary
  downloadUrl : Option String

/-- Model of `toVariantCandidate`: id extraction (at least one of
variant/profile id required), name, and heuristic field extraction. -/
def toVariantCandidate (configuredPrinter : String) (raw : Json) : Option VariantCandidate :=
  match raw with
  | .obj _ =>
    let variantId := findIntegerByHints raw ["variantid", "instanceid", "id"]
    let profileId := findIntegerByHints raw ["profileid", "presetid", "profile_id", "preset_id"]
    if variantId = none ∧ profileId = none then none
    else
      let name :=
        match findStringByHints raw ["title", "name", "profilename", "instancename"] with
        | some n => n
        | none => "MakerWorld variant " ++ toString ((variantId <|> profileId).getD 0)
      some
        { variantId := variantId
          profileId := profileId
          name := name
          printer := extractPrinter configuredPrinter raw
          material := extractMaterial raw
          estimatedHours := extractEstimatedHours raw
          estimatedGrams := extractEstimatedGrams raw
          payload := raw
          settingsSummary := extractSettingsSummary raw
          downloadUrl := chooseDownloadUrl raw }
  | _ => none

/-- Model of `hasCompleteMetrics`: both metrics present, finite, positive. -/
def hasCompleteMetrics (variant : VariantCandidate) : Bool :=
  match variant.estimatedHours, variant.estimatedGrams with
  | some h, some g => 0 < h ∧ 0 < g
  | _, _ => false

/-- Deduplication key: `(variantId ?? profileId ?? "none") : lowercased name`. -/
def dedupeKey (v : VariantCandidate) : String :=
  (match v.variantId <|> v.profileId with
   | some n => toString n
   | none => "none") ++ ":" ++ jsToLower v.name

/-- Collision score used by `dedupeVariants`. -/
def dedupeScore (v : VariantCandidate) : Nat :=
  (if hasCompleteMetrics v then 1 else 0) + (if v.downloadUrl ≠ none then 1 else 0)

/-- One `Map.set`-style upsert step of `dedupeVariants`: a new key appends,
a colliding key replaces in place only when the incoming score is strictly
higher. -/
def dedupeStep (acc : List (String × VariantCandidate)) (v : VariantCandidate) :
    List (String × VariantCandidate) :=
  match acc.find? (fun kv => kv.1 = dedupeKey v) with
  | none => acc ++ [(dedupeKey v, v)]
  | some existing =>
    if dedupeScore existing.2 < dedupeScore v then
      acc.map (fun kv => if kv.1 = dedupeKey v then (kv.1, v) else kv)
    else acc

/-- Model of `dedupeVariants`. -/
def dedupeVariants (variants : List VariantCandidate) : List VariantCandidate :=
  (variants.foldl dedupeStep []).map (fun kv => kv.2)

/-- Strict comparison on optional hours with `none` as `+∞`. -/
def optQLtTop : Option ℚ → Option ℚ → Bool
  | some a, some b => a < b
  | some _, none => true
  | none, _ => false

/-- Non-strict comparison on optional grams with `none` as `+∞` (the JS
comparator returns `NaN → 0` when both are infinite). -/
def optQLeTop : Option ℚ → Option ℚ → Bool
  | some a, some b => a ≤ b
  | some _, none => true
  | none, some _ => false
  | none, none => true

/-- The sort comparator of `scoreAndSortVariants` as a `≤`-relation:
primary key estimated hours, secondary key estimated grams, missing values
last. -/
def variantLe (a b : VariantCandidate) : Bool :=
  if a.estimatedHours = b.estimatedHours then optQLeTop a.estimatedGrams b.estimatedGrams
  else optQLtTop a.estimatedHours b.estimatedHours

/-- Model of `scoreAndSortVariants`: a stable sort under `variantLe`
(JS `Array.prototype.sort` is stable, and insertion sort realises the same
stable order for this consistent comparator). -/
def scoreAndSortVariants (variants : List VariantCandidate) : List VariantCandidate :=
  List.insertionSort (fun a b => variantLe a b = true) variants

/-- Model of `findVariantByRequestedId`. -/
def findVariantByRequestedId (variants : List VariantCandidate) (requestedId : Nat) :
    Option VariantCandidate :=
  variants.find? (fun v => v.variantId = some requestedId ∨ v.profileId = some requestedId)

/-- The closed reason-code set (`MakerWorldReasonCode`). -/
inductive MakerWorldReasonCode where
  | invalidUrl
  | notFound
  | upstreamBlocked
  | timeout
  | malformedPayload
  | networkError
  | incompatibleProfile
  | missingProfileMetrics
  | downloadUnavailable
  | unsupportedModelFormat
deriving DecidableEq

/-- Selection strategies. -/
inductive MakerWorldSelectionStrategy where
  | requestedVariantId
  | userSelectedVariant
  | shortestTimeFallback
deriving DecidableEq

/-- String label of a selection strategy (as serialised into payloads). -/
def selectionStrategyLabel : MakerWorldSelectionStrategy → String
  | .requestedVariantId => "requested_variant_id"
  | .userSelectedVariant => "user_selected_variant"
  | .shortestTimeFallback => "shortest_time_fallback"

/-- Profile resolution modes. -/
inductive MakerWorldProfileResolutionMode where
  | strict
  | relaxedPrinter
deriving DecidableEq

/-- String label of a resolution mode. -/
def resolutionModeLabel : MakerWorldProfileResolutionMode → String
  | .strict => "strict"
  | .relaxedPrinter => "relaxed_printer"

/-- Profile resolution confidences. -/
inductive MakerWorldProfileResolutionConfidence where
  | high
  | medium
deriving DecidableEq

/-- String label of a resolution confidence. -/
def resolutionConfidenceLabel : MakerWorldProfileResolutionConfidence → String
  | .high => "high"
  | .medium => "medium"

/-- One entry of `availableVariants`. -/
structure MakerWorldAvailableVariant where
  variantId : Option Nat
  profileId : Option Nat
  name : String
  printer : String
  material : String
  estimatedHours : ℚ
  estimatedGrams : ℚ
deriving DecidableEq

/-- The final successful resolution record (`MakerWorldResolvedData`). -/
structure MakerWorldResolvedData where
  sourceUrl : String
  sourceModelTitle : String
  downloadUrl : Option String
  fileOriginalName : String
  selectedVariantId : Option Nat
  selectedProfileId : Option Nat
  selectionStrategy : MakerWorldSelectionStrategy
  availableVariants : List MakerWorldAvailableVariant
  importWarnings : List String
  profileResolutionMode : MakerWorldProfileResolutionMode
  profileResolutionConfidence : MakerWorldProfileResolutionConfidence
  sourceProfileId : Option Nat
  sourceProfileName : String
  sourceProfilePrinter : String
  sourceProfileMaterial : String
  sourceProfileEstimatedGrams : ℚ
  sourceProfileEstimatedHours : ℚ
  sourceProfilePayload : Json
  sourceSettingsSummary : MakerWorldSettingsSummary
  lockedMaterial : Material

/-- Internal per-stage pipeline result (`ResolvePipelineResult`). -/
inductive ResolvePipelineResult where
  | ok (data : MakerWorldResolvedData) (warnings : List String)
  | fail (reasonCode : MakerWorldReasonCode) (message : String) (warnings : List String)

/-- Result of the selection block of `finalizeResolvedData` (lines
selecting from the duration-sorted pool). -/
structure SelectionOutcome where
  selected : Option VariantCandidate
  strategy : MakerWorldSelectionStrategy
  warnings : List String

/-- Warning emitted when the hash-requested variant id is absent from the
selection pool. -/
def requestedUnavailableWarning : String :=
  "Requested MakerWorld variant was unavailable. Used the best available variant."

/-- Warning emitted when the caller-selected variant id is absent from the
selection pool. -/
def selectedUnavailableWarning : String :=
  "Selected MakerWorld variant was unavailable. Used the best available variant."

/-- The selection block of `finalizeResolvedData`: from a duration-sorted
pool, the hash-requested id is consulted first; only when no hash id was
given is the caller-supplied id consulted; otherwise (and whenever a lookup
misses, with a warning) the first pool entry is used. -/
def selectFromSortedPool (sortedPool : List VariantCandidate)
    (requestedVariantId userVariantId : Option Nat) (warnings : List String) :
    SelectionOutcome :=
  match requestedVariantId with
  | some r =>
    match findVariantByRequestedId sortedPool r with
    | some v => ⟨some v, .requestedVariantId, warnings⟩
    | none => ⟨sortedPool.head?, .shortestTimeFallback, warnings ++ [requestedUnavailableWarning]⟩
  | none =>
    match userVariantId with
    | some u =>
      match findVariantByRequestedId sortedPool u with
      | some v => ⟨some v, .userSelectedVariant, warnings⟩
      | none => ⟨sortedPool.head?, .shortestTimeFallback, warnings ++ [selectedUnavailableWarning]⟩
    | none => ⟨sortedPool.head?, .shortestTimeFallback, warnings⟩

/-- Inputs of `finalizeResolvedData`. -/
structure FinalizeInput where
  sourceUrl : String
  sourceModelTitle : String
  requestedVariantId : Option Nat
  userVariantId : Option Nat
  variants : List VariantCandidate
  warnings : List String

/-- Json value of an optional id (`null` when absent). -/
def jsonOfOptNat : Option Nat → Json
  | some n => .num n
  | none => .null

/-- Tail of `finalizeResolvedData` once the candidate pool, resolution mode
and confidence are fixed: sort, select, validate metrics, and build the
resolved data record. -/
def finalizeWithPool (input : FinalizeInput) (candidatePool : List VariantCandidate)
    (resolutionMode : MakerWorldProfileResolutionMode)
    (resolutionConfidence : MakerWorldProfileResolutionConfidence)
    (warnings : List String) : ResolvePipelineResult :=
  let sortedPool := scoreAndSortVariants candidatePool
  let sel := selectFromSortedPool sortedPool input.requestedVariantId input.userVariantId warnings
  match sel.selected with
  | none =>
    .fail .missingProfileMetrics
      "MakerWorld profile metrics are unavailable for the selected model." sel.warnings
  | some selected =>
    if ¬ hasCompleteMetrics selected then
      .fail .missingProfileMetrics
        "MakerWorld profile metrics are unavailable for the selected model." sel.warnings
    else
      let availableVariants :=
        (sortedPool.filter (fun v => hasCompleteMetrics v)).map fun v =>
          { variantId := v.variantId
            profileId := v.profileId
            name := v.name
            printer := v.printer
            material := v.material
            estimatedHours := jsToFixed 4 (v.estimatedHours.getD 0)
            estimatedGrams := jsToFixed 4 (v.estimatedGrams.getD 0) :
            MakerWorldAvailableVariant }
      let materialLabel := if selected.material = "" then "unknown" else selected.material
      let resolvedDownloadUrl := selected.downloadUrl
      .ok
        { sourceUrl := input.sourceUrl
          sourceModelTitle := input.sourceModelTitle
          downloadUrl := resolvedDownloadUrl
          fileOriginalName :=
            match resolvedDownloadUrl with
            | some u => fileNameFromDownloadUrl u
            | none => "makerworld-model"
          selectedVariantId := selected.variantId <|> selected.profileId
          selectedProfileId := selected.profileId <|> selected.variantId
          selectionStrategy := sel.strategy
          availableVariants := availableVariants
          importWarnings := dedupList sel.warnings
          profileResolutionMode := resolutionMode
          profileResolutionConfidence := resolutionConfidence
          sourceProfileId := selected.profileId <|> selected.variantId
          sourceProfileName := selected.name
          sourceProfilePrinter := selected.printer
          sourceProfileMaterial := materialLabel
          sourceProfileEstimatedGrams := jsToFixed 4 (selected.estimatedGrams.getD 0)
          sourceProfileEstimatedHours := jsToFixed 4 (selected.estimatedHours.getD 0)
          sourceProfilePayload :=
            .obj
              [("source_variant_id", jsonOfOptNat selected.variantId),
               ("source_profile_id", jsonOfOptNat selected.profileId),
               ("selection_strategy", .str (selectionStrategyLabel sel.strategy)),
               ("profile_resolution_mode", .str (resolutionModeLabel resolutionMode)),
               ("profile_resolution_confidence",
                 .str (resolutionConfidenceLabel resolutionConfidence)),
               ("import_warnings", .arr ((dedupList sel.warnings).map Json.str)),
               ("raw_variant_payload", selected.payload)]
          sourceSettingsSummary := selected.settingsSummary
          lockedMaterial := mapMakerWorldMaterial materialLabel }
        sel.warnings

/-- The strict candidate pool of `finalizeResolvedData`: printer-compatible
candidates with complete metrics. -/
def strictPool (configuredPrinter : String) (variants : List VariantCandidate) :
    List VariantCandidate :=
  (variants.filter (fun v => isCompatiblePrinterName v.printer configuredPrinter)).filter
    (fun v => hasCompleteMetrics v)

/-- Model of `finalizeResolvedData` (with the process-wide `PRINTER_MODEL`
constant passed explicitly as `configuredPrinter`). -/
def finalizeResolvedData (configuredPrinter : String) (input : FinalizeInput) :
    ResolvePipelineResult :=
  let warnings := input.warnings
  let strictWithMetrics := strictPool configuredPrinter input.variants
  let variantsWithMetrics := input.variants.filter (fun v => hasCompleteMetrics v)
  let explicitRequestedId := input.requestedVariantId <|> input.userVariantId
  let explicitRequestedWithMetrics :=
    explicitRequestedId.bind (fun r => findVariantByRequestedId variantsWithMetrics r)
  if strictWithMetrics.isEmpty then
    match explicitRequestedWithMetrics with
    | some v =>
      finalizeWithPool input [v] .strict .high
        (warnings ++ ["Printer compatibility inferred from explicitly selected MakerWorld variant."])
    | none =>
      if variantsWithMetrics.isEmpty then
        .fail .missingProfileMetrics
          "MakerWorld profile data is incomplete for this model." warnings
      else
        finalizeWithPool input variantsWithMetrics .relaxedPrinter .medium
          (warnings ++
            ["Printer compatibility could not be verified strictly. Using the best available MakerWorld variant."])
  else finalizeWithPool input strictWithMetrics .strict .high warnings

/-- JSON whitespace (space, tab, LF, CR). -/
def jsonWsChar (c : Char) : Bool :=
  c = ' ' || c.toNat = 9 || c.toNat = 10 || c.toNat = 13

/-- Parse the body of a JSON string after the opening quote, returning the
decoded characters and the remainder after the closing quote.  Invalid
escapes and raw control characters are rejected as `JSON.parse` does; a
`\uXXXX` escape yields its code unit (surrogates outside a valid pair
become the replacement character, a detail unused by the claims). -/
def parseJsonStringBody : Nat → List Char → Option (List Char × List Char)
  | 0, _ => none
  | _ + 1, [] => none
  | fuel + 1, c :: cs =>
    if c = dquote then some ([], cs)
    else if c = bslash then
      match cs with
      | [] => none
      | e :: rest =>
        let simple : Option Char :=
          if e = dquote then some dquote
          else if e = bslash then some bslash
          else if e = '/' then some '/'
          else if e = 'b' then some (Char.ofNat 8)
          else if e = 'f' then some (Char.ofNat 12)
          else if e = 'n' then some (Char.ofNat 10)
          else if e = 'r' then some (Char.ofNat 13)
          else if e = 't' then some (Char.ofNat 9)
          else none
        match simple with
        | some decoded =>
          match parseJsonStringBody fuel rest with
          | some (content, rem) => some (decoded :: content, rem)
          | none => none
        | none =>
          if e = 'u' then
            match rest with
            | h1 :: h2 :: h3 :: h4 :: rest2 => do
              let a ← hexVal h1
              let b ← hexVal h2
              let c2 ← hexVal h3
              let d ← hexVal h4
              let cp := ((a * 16 + b) * 16 + c2) * 16 + d
              let ch := if 0xD800 ≤ cp ∧ cp ≤ 0xDFFF then Char.ofNat 0xFFFD else Char.ofNat cp
              let (content, rem) ← parseJsonStringBody fuel rest2
              pure (ch :: content, rem)
            | _ => none
          else none
    else if c.toNat < 0x20 then none
    else
      match parseJsonStringBody fuel cs with
      | some (content, rem) => some (c :: content, rem)
      | none => none

/-- Parse a JSON number (with the grammar `JSON.parse` accepts: no leading
zeros, optional fraction and exponent). -/
def parseJsonNumber (cs : List Char) : Option (ℚ × List Char) :=
  let (neg, cs1) :=
    match cs with
    | c :: rest => if c = '-' then (true, rest) else (false, cs)
    | [] => (false, cs)
  let (intDs, rest1) := takeDigits cs1
  if intDs.isEmpty then none
  else if intDs.headD '0' = '0' ∧ 1 < intDs.length then none
  else
    let (fracDs, rest2) :=
      match rest1 with
      | c :: rest =>
        if c = '.' then
          let (ds, r) := takeDigits rest
          (ds, r)
        else (([] : List Char), rest1)
      | [] => (([] : List Char), rest1)
    let sawDot : Bool := match rest1 with | c :: _ => c = '.' | [] => false
    if sawDot && fracDs.isEmpty then none
    else
      let base := ratOfDigits intDs fracDs
      let expPart : Option (Int × List Char) :=
        match rest2 with
        | c :: rest =>
          if c = 'e' ∨ c = 'E' then
            let (esign, rest3) :=
              match rest with
              | d :: r2 =>
                if d = '-' then ((-1 : Int), r2)
                else if d = '+' then ((1 : Int), r2)
                else ((1 : Int), rest)
              | [] => ((1 : Int), rest)
            let (eDs, rest4) := takeDigits rest3
            if eDs.isEmpty then none else some (esign * (digitsToNat eDs : Int), rest4)
          else none
        | [] => none
      match expPart with
      | some (e, rest4) =>
        let value := base * (10 : ℚ) ^ e
        some (if neg then -value else value, rest4)
      | none =>
        let sawExp : Bool := match rest2 with | c :: _ => c = 'e' || c = 'E' | [] => false
        if sawExp then none
        else some (if neg then -base else base, rest2)

mutual

/-- Fuel-bounded recursive-descent JSON value parser (model of
`JSON.parse` acceptance; the fuel passed by `jsonParse` is ample, so it
never truncates a parse the grammar accepts). -/
def parseJsonValue : Nat → List Char → Option (Json × List Char)
  | 0, _ => none
  | fuel + 1, cs0 =>
    let cs := cs0.dropWhile jsonWsChar
    match cs with
    | [] => none
    | c :: rest =>
      if c = dquote then
        match parseJsonStringBody (fuel + 1) rest with
        | some (content, rem) => some (.str (String.mk content), rem)
        | none => none
      else if c = '[' then
        let rest1 := rest.dropWhile jsonWsChar
        match rest1 with
        | ']' :: rem => some (.arr [], rem)
        | _ =>
          match parseJsonArrayItems fuel rest with
          | some (items, rem) => some (.arr items, rem)
          | none => none
      else if c = lbrace then
        let rest1 := rest.dropWhile jsonWsChar
        match rest1 with
        | d :: rem =>
          if d = rbrace then some (.obj [], rem)
          else
            match parseJsonObjectItems fuel rest with
            | some (fields, rem2) => some (.obj fields, rem2)
            | none => none
        | [] => none
      else if segAt cs "null".toList then some (.null, cs.drop 4)
      else if segAt cs "true".toList then some (.bool true, cs.drop 4)
      else if segAt cs "false".toList then some (.bool false, cs.drop 5)
      else
        match parseJsonNumber cs with
        | some (q, rem) => some (.num q, rem)
        | none => none

/-- Comma-separated JSON array items up to the closing bracket. -/
def parseJsonArrayItems : Nat → List Char → Option (List Json × List Char)
  | 0, _ => none
  | fuel + 1, cs =>
    match parseJsonValue fuel cs with
    | none => none
    | some (item, rest) =>
      let rest1 := rest.dropWhile jsonWsChar
      match rest1 with
      | ']' :: rem => some ([item], rem)
      | ',' :: rem =>
        match parseJsonArrayItems fuel rem with
        | some (items, rem2) => some (item :: items, rem2)
        | none => none
      | _ => none

/-- Comma-separated JSON object members up to the closing brace. -/
def parseJsonObjectItems : Nat → List Char → Option (List (String × Json) × List Char)
  | 0, _ => none
  | fuel + 1, cs =>
    let cs1 := cs.dropWhile jsonWsChar
    match cs1 with
    | c :: rest =>
      if c = dquote then
        match parseJsonStringBody fuel rest with
        | none => none
        | some (keyChars, rest1) =>
          let rest2 := rest1.dropWhile jsonWsChar
          match rest2 with
          | ':' :: rest3 =>
            match parseJsonValue fuel rest3 with
            | none => none
            | some (value, rest4) =>
              let rest5 := rest4.dropWhile jsonWsChar
              match rest5 with
              | d :: rem =>
                if d = rbrace then some ([(String.mk keyChars, value)], rem)
                else if d = ',' then
                  match parseJsonObjectItems fuel rem with
                  | some (fields, rem2) => some ((String.mk keyChars, value) :: fields, rem2)
                  | none => none
                else none
              | [] => none
          | _ => none
      else none
    | [] => none

end

/-- Model of `JSON.parse` as a total function: `none` models a thrown
`SyntaxError` (including trailing garbage). -/
def jsonParse (raw : String) : Option Json :=
  match parseJsonValue (2 * raw.length + 16) raw.toList with
  | some (j, rest) => if (rest.dropWhile jsonWsChar).isEmpty then some j else none
  | none => none

/-- JS falsiness of a JSON value (`!value`). -/
def jsFalsy : Json → Bool
  | .null => true
  | .bool b => ¬ b
  | .num q => q = 0
  | .str s => s = ""
  | _ => false

/-- Index of the first occurrence of a segment. -/
def findSegIdx (cs needle : List Char) : Option Nat :=
  cs.tails.findIdx? (fun t => segAt t needle)

/-- The `id=["']__NEXT_DATA__["']` attribute pattern with the given pair of
quote characters, lowercased. -/
def nextDataIdPattern (q1 q2 : Char) : List Char :=
  "id=".toList ++ [q1] ++ "__next_data__".toList ++ [q2]

/-- Attempt the `__NEXT_DATA__` script-tag regex at one start position of
the lowercased character list (`lcs`), slicing the capture from the
originals (`ocs`).  Mirrors
`<script[^>]*id=["']__NEXT_DATA__["'][^>]*>([\s\S]*?)<\/script>` with the
`i` flag: attributes run to the first `>`, the capture is lazy up to the
first `</script>`. -/
def nextDataMatchAt (ocs lcs : List Char) : Option String :=
  if segAt lcs "<script".toList then
    match findSegIdx (lcs.drop 7) ['>'] with
    | none => none
    | some gi =>
      let attrs := (lcs.drop 7).take gi
      let quotes := [dquote, squote]
      if quotes.any (fun q1 => quotes.any (fun q2 => hasSeg attrs (nextDataIdPattern q1 q2))) then
        let contentStart := 7 + gi + 1
        match findSegIdx (lcs.drop contentStart) "</script>".toList with
        | none => none
        | some ci => some (String.mk ((ocs.drop contentStart).take ci))
      else none
  else none

/-- Scan all start positions for the `__NEXT_DATA__` script-tag match. -/
def nextDataMatchScan : Nat → List Char → List Char → Option String
  | 0, _, _ => none
  | _ + 1, [], _ => none
  | _ + 1, _, [] => none
  | fuel + 1, o :: os, l :: ls =>
    match nextDataMatchAt (o :: os) (l :: ls) with
    | some captured => some captured
    | none => nextDataMatchScan fuel os ls

/-- Model of `extractNextDataPayload`: the first `__NEXT_DATA__` script-tag
capture parsed as JSON; `none` when the tag is absent or the payload does
not parse. -/
def extractNextDataPayload (html : String) : Option Json :=
  let ocs := html.toList
  let lcs := (jsToLower html).toList
  match nextDataMatchScan (ocs.length + 1) ocs lcs with
  | none => none
  | some captured => jsonParse captured

/-- Model of `asObjectArray`. -/
def asObjectArray : Json → List Json
  | .arr items => items.filter isObjectLike
  | _ => []

/-- Model of `readByPath`: nested field lookup, `none` for any break. -/
def readByPath : Json → List String → Option Json
  | current, [] => some current
  | .obj fields, key :: rest =>
    match objGet fields key with
    | some v => readByPath v rest
    | none => none
  | _, _ :: _ => none

/-- Model of `scoreVariantLikeItem`: +4 for an id-like field, +2 printer,
+1 material, +2 extractable hours, +2 extractable grams, +1 download URL. -/
def scoreVariantLikeItem (item : Json) : Nat :=
  match item with
  | .obj _ =>
    (if (findIntegerByHints item
        ["variantid", "instanceid", "profileid", "presetid", "id", "uid"]).isSome
      then 4 else 0) +
    (if (findStringByHints item ["printername", "printer", "machine", "device"]).isSome
      then 2 else 0) +
    (if (findStringByHints item ["material", "filament"]).isSome then 1 else 0) +
    (if (extractEstimatedHours item).isSome then 2 else 0) +
    (if (extractEstimatedGrams item).isSome then 2 else 0) +
    (if (chooseDownloadUrl item).isSome then 1 else 0)
  | _ => 0

/-- Model of `selectBestVariantArray`: highest summed per-item score wins,
ties broken by larger item count, earlier candidate kept otherwise. -/
def selectBestVariantArray (candidates : List (List Json)) : List Json :=
  let best :=
    candidates.foldl
      (fun best items =>
        if items.isEmpty then best
        else
          let score := items.foldl (fun sum item => sum + scoreVariantLikeItem item) 0
          match best with
          | none => some (items, score)
          | some (bItems, bScore) =>
            if bScore < score ∨ (score = bScore ∧ bItems.length < items.length) then
              some (items, score)
            else best)
      none
  match best with
  | some (items, _) => items
  | none => []

/-- The fixed preferred paths probed by `extractInstancesFromPayload`. -/
def preferredInstancePaths : List (List String) :=
  [["props", "pageProps", "design", "instances"],
   ["props", "pageProps", "design", "profiles"],
   ["props", "pageProps", "design", "variants"],
   ["props", "pageProps", "instances"],
   ["props", "pageProps", "profiles"],
   ["props", "pageProps", "variants"],
   ["pageProps", "design", "instances"],
   ["pageProps", "design", "profiles"],
   ["pageProps", "design", "variants"],
   ["design", "instances"],
   ["design", "profiles"],
   ["design", "variants"],
   ["data", "design", "instances"],
   ["result", "design", "instances"]]

/-- `addCandidate` of `extractInstancesFromPayload`: keep the object-typed
items of a non-empty array-like value. -/
def addInstanceCandidate (acc : List (List Json)) (value : Option Json) : List (List Json) :=
  match value with
  | none => acc
  | some v =>
    let items := asObjectArray v
    if items.isEmpty then acc else acc ++ [items]

/-- Model of `extractInstancesFromPayload`: gather candidate arrays (the
payload itself, fixed preferred paths, direct well-known fields, and
visit-discovered arrays under variant-like keys), then pick the best-scoring
one, falling back to the largest hint-keyed array. -/
def extractInstancesFromPayload (payload : Json) : List Json :=
  let c0 := addInstanceCandidate [] (some payload)
  let c1 := preferredInstancePaths.foldl
    (fun acc p => addInstanceCandidate acc (readByPath payload p)) c0
  let c2 :=
    match payload with
    | .obj fields =>
      let direct :=
        [objGet fields "props", objGet fields "result", objGet fields "design",
         objGet fields "model", objGet fields "pageProps"]
      let afterOwn :=
        addInstanceCandidate
          (addInstanceCandidate
            (addInstanceCandidate c1 (objGet fields "instances"))
            (objGet fields "profiles"))
          (objGet fields "variants")
      direct.foldl
        (fun acc value =>
          match value with
          | some (.obj sub) =>
            [objGet sub "instances", objGet sub "profiles", objGet sub "variants",
             objGet sub "list", objGet sub "items", objGet sub "hits"].foldl
              addInstanceCandidate acc
          | _ => acc)
        afterOwn
    | _ => c1
  let c3 :=
    (visitEntries payload).foldl
      (fun acc e =>
        match e.value with
        | .arr _ =>
          let normalized := jsToLower e.key
          let isLikelyVariantKey :=
            jsIncludes normalized "instance" || jsIncludes normalized "profile" ||
            jsIncludes normalized "variant" || jsIncludes normalized "preset"
          let parentKeys :=
            match e.parent with
            | some (.obj fields) =>
              jsToLower (String.intercalate "|" (fields.map (fun kv => kv.1)))
            | _ => ""
          let parentSuggestsModel :=
            jsIncludes parentKeys "design" || jsIncludes parentKeys "model" ||
            jsIncludes parentKeys "profile" || jsIncludes parentKeys "instance" ||
            jsIncludes parentKeys "variant"
          if isLikelyVariantKey ||
              (parentSuggestsModel && (normalized = "list" || normalized = "items")) then
            addInstanceCandidate acc (some e.value)
          else acc
        | _ => acc)
      c2
  let best := selectBestVariantArray c3
  if best.length > 0 then best
  else findArrayByKeyHint payload ["instances", "profiles", "variants", "presets"]

/-- An upstream API error record (`MakerWorldApiError`). -/
structure MakerWorldApiError where
  reasonCode : MakerWorldReasonCode
  message : String
  status : Option Nat
deriving DecidableEq

/-- Result of one API fetch (`MakerWorldApiResult<unknown>`). -/
inductive JsApiResult where
  | ok (data : Json)
  | err (error : MakerWorldApiError)

/-- Model of `mapHttpStatus` (`api.ts`). -/
def mapHttpStatus (status : Nat) : MakerWorldReasonCode × String :=
  if status = 404 then (.notFound, "MakerWorld resource was not found.")
  else if status = 401 ∨ status = 403 ∨ status = 429 then
    (.upstreamBlocked, "MakerWorld blocked the request (" ++ toString status ++ ").")
  else if status = 408 ∨ status = 504 then (.timeout, "MakerWorld request timed out.")
  else (.networkError, "MakerWorld API request failed (" ++ toString status ++ ").")

/-- Behaviour of one fetch attempt of `fetchApiJson`: an HTTP response
(status plus body text) or a network-level failure (`aborted` marks an
`AbortError`). -/
inductive AttemptBehavior where
  | http (status : Nat) (body : String)
  | netfail (aborted : Bool) (msg : String)

/-- A 2xx status (`response.ok`). -/
def httpOk (status : Nat) : Bool :=
  200 ≤ status ∧ status ≤ 299

/-- The retry loop of `fetchApiJson` from a given attempt index: non-2xx
responses are mapped and returned immediately; bodies are checked for
emptiness and JSON validity; network failures retry sequentially until the
attempt index reaches the retry budget, then map to `timeout` (abort) or
`network_error`. -/
def fetchApiJsonGo (behaviors : Nat → AttemptBehavior) (retries : Nat) :
    Nat → Nat → JsApiResult
  | 0, _ =>
    -- Models the dead `return apiErr(...)` after the loop: unreachable, as
    -- the loop body always returns by its last attempt and the fuel below
    -- covers every attempt index up to `retries`.
    .err ⟨.networkError, "MakerWorld API request failed.", none⟩
  | fuel + 1, attempt =>
    match behaviors attempt with
    | .http status body =>
      if httpOk status then
        if jsTrim body = "" then
          .err ⟨.malformedPayload, "MakerWorld API returned an empty payload.", some status⟩
        else
          match jsonParse body with
          | some j => .ok j
          | none =>
            .err ⟨.malformedPayload, "MakerWorld API returned invalid JSON.", some status⟩
      else
        let mapped := mapHttpStatus status
        .err ⟨mapped.1, mapped.2, some status⟩
    | .netfail aborted msg =>
      if retries ≤ attempt then
        .err ⟨(if aborted then .timeout else .networkError),
          (if aborted then "MakerWorld API request timed out."
           else "MakerWorld API request failed: " ++ msg), none⟩
      else fetchApiJsonGo behaviors retries fuel (attempt + 1)

/-- Model of `fetchApiJson`'s attempt loop starting at attempt 0 (the fuel
`retries + 1` is the exact number of loop iterations the JS `for` allows). -/
def fetchApiJson (behaviors : Nat → AttemptBehavior) (retries : Nat) : JsApiResult :=
  fetchApiJsonGo behaviors retries (retries + 1) 0

/-- Per-call request options of `fetchApiJson` (`MakerWorldApiRequestOptions`). -/
structure MakerWorldApiRequestOptions where
  timeoutMs : Option ℚ := none
  retries : Option Int := none
  headers : List (String × String) := []
deriving DecidableEq

/-- Default API timeout (`API_TIMEOUT_MS`). -/
def API_TIMEOUT_MS : ℚ := 8000

/-- Default API retry count (`API_RETRY_COUNT`). -/
def API_RETRY_COUNT : Nat := 1

/-- The static request headers (`API_HEADERS`). -/
def apiHeaders : List (String × String) :=
  [("user-agent", "3d-printing-service/1.0"),
   ("accept", "application/json,text/plain,*/*"),
   ("x-bbl-client-type", "web"),
   ("x-bbl-client-version", "00.00.00.01"),
   ("x-bbl-app-source", "makerworld"),
   ("x-bbl-client-name", "MakerWorld")]

/-- The timeout `fetchApiJson` applies: a positive finite caller value, else
the default. -/
def effectiveTimeoutMs (options : Option MakerWorldApiRequestOptions) : ℚ :=
  match options with
  | some o =>
    match o.timeoutMs with
    | some t => if 0 < t then t else API_TIMEOUT_MS
    | none => API_TIMEOUT_MS
  | none => API_TIMEOUT_MS

/-- The retry count `fetchApiJson` applies: a finite caller value clamped
to zero, else the default. -/
def effectiveRetries (options : Option MakerWorldApiRequestOptions) : Nat :=
  match options with
  | some o =>
    match o.retries with
    | some r => r.toNat
    | none => API_RETRY_COUNT
  | none => API_RETRY_COUNT

/-- Object-spread merge of header maps (`{ ...API_HEADERS, ...overrides }`):
base keys keep their position but take overriding values; new override keys
append in order. -/
def mergeHeaders (base overrides : List (String × String)) : List (String × String) :=
  base.map
    (fun kv =>
      match overrides.find? (fun ov => ov.1 = kv.1) with
      | some ov => (kv.1, ov.2)
      | none => kv) ++
  overrides.filter (fun ov => (base.find? (fun kv => kv.1 = ov.1)).isNone)

/-- The headers `fetchApiJson` applies. -/
def effectiveHeaders (options : Option MakerWorldApiRequestOptions) :
    List (String × String) :=
  mergeHeaders apiHeaders (match options with | some o => o.headers | none => [])

/-- The request options the resolver (`makerworld.ts`) passes to
`fetchDesign` / `fetchDesignInstances` / `fetchProfile` /
`fetchInstance3mf` / `fetchDesignModel`: none — every call site invokes the
fetch helpers with the id argument only. -/
def resolverApiCallOptions : Option MakerWorldApiRequestOptions := none

/-- The fixed page-fetch timeout (`HTML_FETCH_TIMEOUT_MS`). -/
def HTML_FETCH_TIMEOUT_MS : ℚ := 12000

/-- The fixed model-download timeout (`MODEL_FETCH_TIMEOUT_MS`). -/
def MODEL_FETCH_TIMEOUT_MS : ℚ := 20000

/-- Model of a URL-validation failure of `normalizeSourceUrl`. -/
structure NormalizeFailure where
  reasonCode : MakerWorldReasonCode
  message : String
deriving DecidableEq

/-- The successful result of `normalizeSourceUrl`. -/
structure NormalizedSource where
  normalized : String
  designId : Nat
  requestedVariantId : Option Nat
deriving DecidableEq

/-- Match `\/models?\/(\d+)` at one position of the lowercased path,
returning the captured design id. -/
def designIdAt (cs : List Char) : Option Nat :=
  if segAt cs "/models/".toList then
    let ds := (takeDigits (cs.drop 8)).1
    if ds.isEmpty then none else some (digitsToNat ds)
  else if segAt cs "/model/".toList then
    let ds := (takeDigits (cs.drop 7)).1
    if ds.isEmpty then none else some (digitsToNat ds)
  else none

/-- First match of `\/models?\/(\d+)` in the lowercased path.  `Number` of
a digit capture is finite for every in-scope id length, so the JS
`Number.isFinite` guard is modelled as always true. -/
def firstDesignId (path : String) : Option Nat :=
  (jsToLower path).toList.tails.findSome? designIdAt

/-- Test of `\/models?\//i` on the pathname. -/
def pathHasModelSegment (path : String) : Bool :=
  (jsToLower path).toList.tails.any
    (fun t => segAt t "/model/".toList || segAt t "/models/".toList)

/-- First match of `profileid-(\d+)` (case-insensitive) in the URL
fragment, as the JS match on `parsed.hash`. -/
def hashProfileId (fragment : String) : Option Nat :=
  (jsToLower fragment).toList.tails.findSome? fun t =>
    if segAt t "profileid-".toList then
      let ds := (takeDigits (t.drop 10)).1
      if ds.isEmpty then none else some (digitsToNat ds)
    else none

/-- Model of `normalizeSourceUrl`: https MakerWorld model URLs with a
positive numeric design id; the optional `#profileId-<digits>` fragment
yields the requested variant id and is stripped from the normalized URL. -/
def normalizeSourceUrl (input : String) : Except NormalizeFailure NormalizedSource :=
  match parseUrl input with
  | none => .error ⟨.invalidUrl, "MakerWorld model page URL is required."⟩
  | some parsed =>
    let host := jsToLower parsed.host
    if urlProtocol parsed ≠ "https:" ∨
        ¬ (host = "makerworld.com" ∨ jsEndsWith host ".makerworld.com" = true) then
      .error ⟨.invalidUrl, "MakerWorld model page URL is required."⟩
    else if ¬ pathHasModelSegment parsed.path then
      .error ⟨.invalidUrl, "MakerWorld model page URL is required."⟩
    else
      match firstDesignId parsed.path with
      | none => .error ⟨.invalidUrl, "Could not extract MakerWorld design ID from URL."⟩
      | some designId =>
        if designId = 0 then
          .error ⟨.invalidUrl, "Could not extract MakerWorld design ID from URL."⟩
        else
          let requestedVariantId :=
            match hashProfileId parsed.fragment with
            | some n => if 0 < n then some n else none
            | none => none
          .ok ⟨urlToString { parsed with fragment := "" }, designId, requestedVariantId⟩

/-- Replace or append one field of a JSON object (JS object spread with one
extra key). -/
def objSetField (fields : List (String × Json)) (key : String) (value : Json) :
    List (String × Json) :=
  if (fields.find? (fun kv => kv.1 = key)).isSome then
    fields.map (fun kv => if kv.1 = key then (kv.1, value) else kv)
  else fields ++ [(key, value)]

/-- Model of `maybeEnrichWithProfile` given the profile fetch result: the
candidate is unchanged when it has no profile id, is already complete, the
lookup failed, or the payload is not a record; otherwise only
unknown/missing fields are filled from the profile payload. -/
def maybeEnrichWithProfile (configuredPrinter : String) (candidate : VariantCandidate)
    (profileResult : JsApiResult) : VariantCandidate :=
  match candidate.profileId with
  | none => candidate
  | some _ =>
    if hasCompleteMetrics candidate ∧ candidate.printer ≠ "unknown" ∧
        candidate.material ≠ "unknown" then candidate
    else
      match profileResult with
      | .err _ => candidate
      | .ok data =>
        match data with
        | .obj _ =>
          { candidate with
            printer :=
              if candidate.printer ≠ "unknown" then candidate.printer
              else extractPrinter configuredPrinter data
            material :=
              if candidate.material ≠ "unknown" then candidate.material
              else extractMaterial data
            estimatedHours := candidate.estimatedHours <|> extractEstimatedHours data
            estimatedGrams := candidate.estimatedGrams <|> extractEstimatedGrams data
            settingsSummary :=
              if settingsSummaryNonEmpty candidate.settingsSummary then
                candidate.settingsSummary
              else extractSettingsSummary data
            downloadUrl := candidate.downloadUrl <|> chooseDownloadUrl data
            payload :=
              match candidate.payload with
              | .obj fields => .obj (objSetField fields "profile_payload" data)
              | other => other }
        | _ => candidate

/-- The network environment one resolve call observes: the result of each
upstream request the stages may issue.  Each entry is `Except`-wrapped: the
error side models the promise rejecting with an unexpected fault (the
behaviour the orchestrator's outer `try/catch` guards against).
`pageText` is the outcome of `fetchTextWithLimit`, whose own throws are
caught and classified inside `resolveViaNextData`, so it carries the thrown
message on the error side without a second wrapper. -/
structure ResolveEnv where
  design : Except String JsApiResult
  instances : Except String JsApiResult
  profileOf : Nat → Except String JsApiResult
  instance3mf : Nat → Except String JsApiResult
  designModel : Except String JsApiResult
  pageText : Except String String

/-- The effectful wrapper of `maybeEnrichWithProfile`: the guards that
skip the lookup, then the `fetchProfile` call (whose unexpected rejection
propagates). -/
def maybeEnrichWithProfileCall (configuredPrinter : String) (env : ResolveEnv)
    (candidate : VariantCandidate) : Except String VariantCandidate :=
  match candidate.profileId with
  | none => .ok candidate
  | some pid =>
    if hasCompleteMetrics candidate ∧ candidate.printer ≠ "unknown" ∧
        candidate.material ≠ "unknown" then .ok candidate
    else
      match env.profileOf pid with
      | .error t => .error t
      | .ok r => .ok (maybeEnrichWithProfile configuredPrinter candidate r)

/-- Inputs of the API stage. -/
structure ApiStageInput where
  sourceUrl : String
  designId : Nat
  requestedVariantId : Option Nat
  userVariantId : Option Nat

/-- Model of `resolveViaApi`: concurrent design/instances fetches (the
joint await propagates either rejection, design first as in the argument
order of `Promise.all`), instance extraction with design-payload fallback,
candidate mapping, deduplication, enrichment, finalization, then download
URL refinement via the instance asset and design model endpoints. -/
def resolveViaApi (configuredPrinter : String) (env : ResolveEnv)
    (input : ApiStageInput) : Except String ResolvePipelineResult :=
  match env.design with
  | .error t => .error t
  | .ok designResult =>
    match env.instances with
    | .error t => .error t
    | .ok instancesResult =>
      match instancesResult with
      | .err e => .ok (.fail e.reasonCode e.message [])
      | .ok instancesData =>
        let rawInstances := extractInstancesFromPayload instancesData
        let fallbackInstances :=
          match designResult with
          | .ok d => extractInstancesFromPayload d
          | .err _ => []
        let instanceSource :=
          if rawInstances.length > 0 then rawInstances else fallbackInstances
        if instanceSource.isEmpty then
          .ok (.fail .malformedPayload "MakerWorld API did not return usable variant data." [])
        else
          let mapped :=
            dedupeVariants (instanceSource.filterMap (toVariantCandidate configuredPrinter))
          if mapped.isEmpty then
            .ok (.fail .malformedPayload
              "MakerWorld API returned variants in an unsupported format." [])
          else
            match mapped.mapM (maybeEnrichWithProfileCall configuredPrinter env) with
            | .error t => .error t
            | .ok enriched =>
              let titlePayload :=
                match designResult with
                | .ok d => d
                | .err _ => instancesData
              match finalizeResolvedData configuredPrinter
                  ⟨input.sourceUrl, extractModelTitle titlePayload,
                   input.requestedVariantId, input.userVariantId, enriched, []⟩ with
              | .fail rc m w => .ok (.fail rc m w)
              | .ok data warnings =>
                let step1 : Except String (Option String) :=
                  match data.selectedVariantId with
                  | some svid =>
                    match env.instance3mf svid with
                    | .error t => .error t
                    | .ok instanceDownload =>
                      match instanceDownload with
                      | .ok d => .ok ((chooseDownloadUrl d) <|> data.downloadUrl)
                      | .err _ => .ok data.downloadUrl
                  | none => .ok data.downloadUrl
                match step1 with
                | .error t => .error t
                | .ok downloadUrl1 =>
                  match env.designModel with
                  | .error t => .error t
                  | .ok modelDownload =>
                    let downloadUrl2 :=
                      match modelDownload with
                      | .ok d => downloadUrl1 <|> chooseDownloadUrl d
                      | .err _ => downloadUrl1
                    .ok (.ok
                      { data with
                        downloadUrl := downloadUrl2
                        fileOriginalName :=
                          match downloadUrl2 with
                          | some u => fileNameFromDownloadUrl u
                          | none => "makerworld-model" }
                      warnings)

/-- Inputs of the fallback stage. -/
structure FallbackStageInput where
  sourceUrl : String
  requestedVariantId : Option Nat
  userVariantId : Option Nat

/-- Model of `resolveViaNextData`: bounded page fetch (throws classified by
message as timeout or network error), `__NEXT_DATA__` extraction, then the
same extraction → dedupe → enrichment → finalize path as the API stage. -/
def resolveViaNextData (configuredPrinter : String) (env : ResolveEnv)
    (input : FallbackStageInput) : Except String ResolvePipelineResult :=
  match env.pageText with
  | .error msg =>
    if jsIncludes (jsToLower msg) "timed out" ∨ jsIncludes (jsToLower msg) "abort" then
      .ok (.fail .timeout "MakerWorld page request timed out." [])
    else .ok (.fail .networkError msg [])
  | .ok html =>
    let nextData :=
      match extractNextDataPayload html with
      | some j => if jsFalsy j then none else some j
      | none => none
    match nextData with
    | none =>
      .ok (.fail .malformedPayload "MakerWorld page did not expose __NEXT_DATA__ payload." [])
    | some payload =>
      let instances := extractInstancesFromPayload payload
      if instances.isEmpty then
        .ok (.fail .malformedPayload "MakerWorld fallback payload did not include variants." [])
      else
        let variants :=
          dedupeVariants (instances.filterMap (toVariantCandidate configuredPrinter))
        if variants.isEmpty then
          .ok (.fail .malformedPayload
            "MakerWorld fallback payload variant format was unsupported." [])
        else
          match variants.mapM (maybeEnrichWithProfileCall configuredPrinter env) with
          | .error t => .error t
          | .ok enriched =>
            match finalizeResolvedData configuredPrinter
                ⟨input.sourceUrl, extractModelTitle payload, input.requestedVariantId,
                 input.userVariantId, enriched, []⟩ with
            | .fail rc m w => .ok (.fail rc m w)
            | .ok data warnings => .ok (.ok data warnings)

/-- Data sources of the two pipeline stages. -/
inductive DataSource where
  | api
  | nextData
deriving DecidableEq

/-- One diagnostics attempt record. -/
structure AttemptRecord where
  source : DataSource
  ok : Bool
  reasonCode : Option MakerWorldReasonCode
  message : String
deriving DecidableEq

/-- Resolution diagnostics (`MakerWorldDiagnostics`). -/
structure MakerWorldDiagnostics where
  pipeline : List DataSource
  warnings : List String
  attempts : List AttemptRecord
deriving DecidableEq

/-- The empty diagnostics a resolve call starts from. -/
def emptyDiagnostics : MakerWorldDiagnostics := ⟨[], [], []⟩

/-- The public resolve outcome (`MakerWorldResolveOutcome`). -/
inductive MakerWorldResolveOutcome where
  | resolved (data : MakerWorldResolvedData) (diagnostics : MakerWorldDiagnostics)
  | unresolvable (reasonCode : MakerWorldReasonCode) (message : String)
      (diagnostics : MakerWorldDiagnostics)

/-- Model of `toResolveFailure`. -/
def toResolveFailure (reasonCode : MakerWorldReasonCode) (message : String)
    (diagnostics : MakerWorldDiagnostics) : MakerWorldResolveOutcome :=
  .unresolvable reasonCode message diagnostics

/-- Diagnostics of an outcome. -/
def MakerWorldResolveOutcome.diagnosticsOf : MakerWorldResolveOutcome → MakerWorldDiagnostics
  | .resolved _ d => d
  | .unresolvable _ _ d => d

/-- Success flag of an outcome (`ok`). -/
def MakerWorldResolveOutcome.isOk : MakerWorldResolveOutcome → Bool
  | .resolved _ _ => true
  | .unresolvable _ _ _ => false

/-- Reason code of a failed outcome. -/
def MakerWorldResolveOutcome.failureReason : MakerWorldResolveOutcome → Option MakerWorldReasonCode
  | .resolved _ _ => none
  | .unresolvable rc _ _ => some rc

/-- Message of a failed outcome. -/
def MakerWorldResolveOutcome.failureMessage : MakerWorldResolveOutcome → Option String
  | .resolved _ _ => none
  | .unresolvable _ m _ => some m

/-- The public options the implementation's `resolveMakerWorldModel`
accepts (`options?: { variantId?: number | null }`). -/
structure MakerWorldResolveOptionsImpl where
  variantId : Option Int := none
deriving DecidableEq

/-- The caller-supplied variant id accepted by the resolver: a positive
finite number, truncated (ids are integral here, so truncation is the
identity). -/
def userVariantIdOf (options : MakerWorldResolveOptionsImpl) : Option Nat :=
  match options.variantId with
  | some v => if 0 < v then some v.toNat else none
  | none => none

/-- Warning pushed by the orchestrator's catch handler. -/
def unexpectedErrorWarning : String :=
  "Resolver recovered from an unexpected internal error."

/-- Generic user-facing message of the catch handler. -/
def genericResolveFailureMessage : String :=
  "Could not import MakerWorld profile. Please upload STL/OBJ/3MF."

/-- The diagnostics the catch handler returns: warnings extended with the
recovery notice (deduplicated) and a `network_error` attempt appended under
the last attempted source (or `api`). -/
def catchDiagnostics (message : String) (diag : MakerWorldDiagnostics) :
    MakerWorldDiagnostics :=
  { diag with
    warnings := dedupList (diag.warnings ++ [unexpectedErrorWarning])
    attempts := diag.attempts ++
      [(⟨diag.pipeline.getLast?.getD .api, false, some .networkError, message⟩ : AttemptRecord)] }

/-- The `try` body of `resolveMakerWorldModel`, with diagnostics threaded
explicitly: on an unexpected fault the error side carries the thrown
message together with the diagnostics collected up to that point. -/
def resolveBody (configuredPrinter : String) (env : ResolveEnv) (sourceUrl : String)
    (options : MakerWorldResolveOptionsImpl) :
    Except (String × MakerWorldDiagnostics) MakerWorldResolveOutcome :=
  let diag0 := emptyDiagnostics
  match normalizeSourceUrl sourceUrl with
  | .error e =>
    let diag := { diag0 with
      attempts := diag0.attempts ++
        [(⟨.api, false, some e.reasonCode, e.message⟩ : AttemptRecord)] }
    .ok (toResolveFailure e.reasonCode e.message diag)
  | .ok normalized =>
    let userVariantId := userVariantIdOf options
    match resolveViaApi configuredPrinter env
        ⟨normalized.normalized, normalized.designId, normalized.requestedVariantId,
         userVariantId⟩ with
    | .error t => .error (t, diag0)
    | .ok apiResolved =>
      let diag1 := { diag0 with pipeline := diag0.pipeline ++ [DataSource.api] }
      match apiResolved with
      | .ok data warnings =>
        let diag2 := { diag1 with
          attempts := diag1.attempts ++
            [(⟨.api, true, none, "Resolved via MakerWorld API."⟩ : AttemptRecord)]
          warnings := dedupList warnings }
        .ok (.resolved { data with importWarnings := dedupList warnings } diag2)
      | .fail rc1 m1 w1 =>
        let diag2 := { diag1 with
          attempts := diag1.attempts ++ [(⟨.api, false, some rc1, m1⟩ : AttemptRecord)] }
        match resolveViaNextData configuredPrinter env
            ⟨normalized.normalized, normalized.requestedVariantId, userVariantId⟩ with
        | .error t => .error (t, diag2)
        | .ok fallbackResolved =>
          let diag3 := { diag2 with pipeline := diag2.pipeline ++ [DataSource.nextData] }
          match fallbackResolved with
          | .ok data warnings =>
            let diag4 := { diag3 with
              attempts := diag3.attempts ++
                [(⟨.nextData, true, none, "Resolved via __NEXT_DATA__ fallback."⟩ : AttemptRecord)]
              warnings := dedupList warnings }
            .ok (.resolved { data with importWarnings := dedupList warnings } diag4)
          | .fail rc2 m2 w2 =>
            let diag4 := { diag3 with
              attempts := diag3.attempts ++
                [(⟨.nextData, false, some rc2, m2⟩ : AttemptRecord)]
              warnings := dedupList (w1 ++ w2) }
            .ok (toResolveFailure rc2 m2 diag4)

/-- Model of `resolveMakerWorldModel`: the `try` body, with any unexpected
fault converted by the catch handler to a `network_error` failure that
preserves the diagnostics collected so far. -/
def resolveMakerWorldModel (configuredPrinter : String) (env : ResolveEnv)
    (sourceUrl : String) (options : MakerWorldResolveOptionsImpl) :
    MakerWorldResolveOutcome :=
  match resolveBody configuredPrinter env sourceUrl options with
  | .ok outcome => outcome
  | .error (message, diag) =>
    toResolveFailure .networkError genericResolveFailureMessage
      (catchDiagnostics message diag)

/-- The allowed model extensions. -/
inductive ModelExtension where
  | stl
  | obj
  | mf3
deriving DecidableEq

/-- String label of a model extension. -/
def modelExtensionLabel : ModelExtension → String
  | .stl => "stl"
  | .obj => "obj"
  | .mf3 => "3mf"

/-- Model of `normalizeModelExtension`: lowercase, strip one leading dot,
accept only the allowed set. -/
def normalizeModelExtension (extension : Option String) : Option ModelExtension :=
  match extension with
  | none => none
  | some e =>
    let lowered := jsToLower e
    let normalized :=
      match lowered.toList with
      | c :: rest => if c = '.' then String.mk rest else lowered
      | [] => lowered
    if normalized = "stl" then some .stl
    else if normalized = "obj" then some .obj
    else if normalized = "3mf" then some .mf3
    else none

/-- Model of `inferModelExtension`: explicit filename extension, then
final-URL extension, then content-type substring mapping. -/
def inferModelExtension (explicitFilename finalUrl : String)
    (contentType : Option String) : Option ModelExtension :=
  match normalizeModelExtension (some (extnameOf explicitFilename)) with
  | some e => some e
  | none =>
    match normalizeModelExtension (some (extnameOf (fileNameFromDownloadUrl finalUrl))) with
    | some e => some e
    | none =>
      let ty := jsToLower (contentType.getD "")
      if jsIncludes ty "3mf" ∨ jsIncludes ty "zip" then some .mf3
      else if jsIncludes ty "stl" ∨ jsIncludes ty "sla" then some .stl
      else if jsIncludes ty "obj" then some .obj
      else none

/-- Scan aligned original/lowercased character lists position by position
with a matcher. -/
def scanAligned (f : List Char → List Char → Option String) :
    Nat → List Char → List Char → Option String
  | 0, _, _ => none
  | _ + 1, [], _ => none
  | _ + 1, _, [] => none
  | fuel + 1, o :: os, l :: ls =>
    match f (o :: os) (l :: ls) with
    | some r => some r
    | none => scanAligned f fuel os ls

/-- The `filename*=UTF-8''([^;]+)` alternative at one position. -/
def cdUtfAt (ocs lcs : List Char) : Option String :=
  let pat := ("filename*=utf-8".toList) ++ [squote, squote]
  if segAt lcs pat then
    let captured := (lcs.drop 17).takeWhile (fun c => c ≠ ';')
    if captured.isEmpty then none
    else some (String.mk ((ocs.drop 17).take captured.length))
  else none

/-- The `filename="?([^";]+)"?` alternative at one position. -/
def cdBasicAt (ocs lcs : List Char) : Option String :=
  if segAt lcs "filename=".toList then
    let afterQuote : Nat :=
      match lcs.drop 9 with
      | c :: _ => if c = dquote then 10 else 9
      | [] => 9
    let captured := (lcs.drop afterQuote).takeWhile (fun c => ¬ (c = dquote ∨ c = ';'))
    if captured.isEmpty then none
    else some (String.mk ((ocs.drop afterQuote).take captured.length))
  else none

/-- Model of `parseContentDispositionFilename`: the UTF-8 form (percent
decoded, falling back to the raw capture when decoding throws), else the
basic quoted/unquoted form trimmed, else `null`. -/
def parseContentDispositionFilename (value : Option String) : Option String :=
  match value with
  | none => none
  | some v =>
    let ocs := v.toList
    let lcs := (jsToLower v).toList
    match scanAligned cdUtfAt (ocs.length + 1) ocs lcs with
    | some captured =>
      match jsDecodeURIComponent captured with
      | some decoded => some decoded
      | none => some captured
    | none =>
      match scanAligned cdBasicAt (ocs.length + 1) ocs lcs with
      | none => none
      | some captured => if jsTrim captured = "" then none else some (jsTrim captured)

/-- The response data a successful bounded model fetch returns. -/
structure FetchedModelFile where
  buffer : List Nat
  finalUrl : String
  contentType : Option String
  contentDisposition : Option String

/-- Result of `fetchModelFileWithLimit`. -/
inductive FetchModelFileResult where
  | ok (fetched : FetchedModelFile)
  | err (status : Option Nat) (reasonCode : MakerWorldReasonCode) (message : String)

/-- Behaviour of the single fetch a download performs. -/
inductive DownloadFetchBehavior where
  | response (status : Nat) (contentLength : Option Nat) (bytes : List Nat)
      (finalUrl : Option String) (contentType : Option String)
      (contentDisposition : Option String)
  | thrown (msg : String)

/-- Model of `fetchModelFileWithLimit`: 404 maps to `not_found`, other
non-2xx to `download_unavailable`; a `Content-Length` over the cap rejects
early; the fetched byte count is checked against the cap; thrown aborts map
to `timeout`, other throws to `download_unavailable`. -/
def fetchModelFileWithLimit (url : String) (maxBytes : Nat)
    (behavior : DownloadFetchBehavior) : FetchModelFileResult :=
  match behavior with
  | .thrown msg =>
    if jsIncludes (jsToLower msg) "abort" ∨ jsIncludes (jsToLower msg) "timed out" then
      .err none .timeout "MakerWorld model download timed out."
    else .err none .downloadUnavailable msg
  | .response status contentLength bytes finalUrl contentType contentDisposition =>
    if ¬ httpOk status then
      .err (some status) (if status = 404 then .notFound else .downloadUnavailable)
        ("MakerWorld model download failed (" ++ toString status ++ ").")
    else
      let cl := contentLength.getD 0
      if 0 < cl ∧ maxBytes < cl then
        .err (some status) .downloadUnavailable
          "MakerWorld model is too large (max 50MB on current plan)."
      else if maxBytes < bytes.length then
        .err (some status) .downloadUnavailable
          "MakerWorld model is too large (max 50MB on current plan)."
      else
        .ok ⟨bytes,
          (match finalUrl with
           | some fu => if fu = "" then url else fu
           | none => url),
          contentType, contentDisposition⟩

/-- The public download outcome (`MakerWorldDownloadOutcome`). -/
inductive MakerWorldDownloadOutcome where
  | downloaded (buffer : List Nat) (filename : String) (extensionOf : ModelExtension)
      (contentType : Option String) (finalUrl : String)
  | unavailable (reasonCode : MakerWorldReasonCode) (message : String)

/-- The base filename a download derives before extension handling:
`Content-Disposition` filename first, else the URL path basename, with the
literal fallback name for a blank result (the inner `?? "makerworld-model"`
of the source is dead, as `fileNameFromDownloadUrl` never returns null). -/
def downloadBaseFilename (fetched : FetchedModelFile) : String :=
  let headerFilename := parseContentDispositionFilename fetched.contentDisposition
  let fallbackFilename := fileNameFromDownloadUrl fetched.finalUrl
  let baseFilename0 := jsTrim (headerFilename.getD fallbackFilename)
  if baseFilename0 = "" then "makerworld-model" else baseFilename0

/-- The filename/extension derivation of `downloadMakerWorldModelFile`
applied to a successfully fetched response. -/
def downloadOutcomeFromFetched (fetched : FetchedModelFile) : MakerWorldDownloadOutcome :=
  let baseFilename := downloadBaseFilename fetched
  match inferModelExtension baseFilename fetched.finalUrl fetched.contentType with
  | none =>
    .unavailable .unsupportedModelFormat
      "Could not detect STL/OBJ/3MF format from MakerWorld download."
  | some ext =>
    let extLabel := modelExtensionLabel ext
    let filename :=
      if jsEndsWith (jsToLower baseFilename) ("." ++ extLabel) then baseFilename
      else baseFilename ++ "." ++ extLabel
    .downloaded fetched.buffer filename ext fetched.contentType fetched.finalUrl

/-- Model of `downloadMakerWorldModelFile` (with the process-wide
`MAX_UPLOAD_BYTES` cap passed explicitly): fetch with the byte cap, then
derive filename and extension.  The implementation's signature accepts the
download URL only — no per-call options parameter exists. -/
def downloadMakerWorldModelFile (maxUploadBytes : Nat) (downloadUrl : String)
    (behavior : DownloadFetchBehavior) : MakerWorldDownloadOutcome :=
  match fetchModelFileWithLimit downloadUrl maxUploadBytes behavior with
  | .err _ rc m => .unavailable rc m
  | .ok fetched => downloadOutcomeFromFetched fetched

/-! Statement helpers: projections on results, and the order theory of the
variant sort comparator. -/

/-- Selection strategy of a pipeline result, when successful. -/
def pipelineStrategy : ResolvePipelineResult → Option MakerWorldSelectionStrategy
  | .ok d _ => some d.selectionStrategy
  | .fail _ _ _ => none

/-- Reason code of a failed pipeline result. -/
def pipelineReason : ResolvePipelineResult → Option MakerWorldReasonCode
  | .ok _ _ => none
  | .fail rc _ _ => some rc

/-- Selected variant id of a successful pipeline result. -/
def pipelineSelectedVariantId : ResolvePipelineResult → Option (Option Nat)
  | .ok d _ => some d.selectedVariantId
  | .fail _ _ _ => none

/-- Warnings of a pipeline result (both variants carry them). -/
def pipelineWarnings : ResolvePipelineResult → List String
  | .ok _ w => w
  | .fail _ _ w => w

/-- Optional rational with `none` as `+∞`, embedded into `WithTop ℚ`. -/
def keyOfOpt : Option ℚ → WithTop ℚ
  | some q => (q : WithTop ℚ)
  | none => ⊤

/-- `optQLtTop` agrees with the `WithTop` strict order. -/
theorem optQLtTop_iff (x y : Option ℚ) : optQLtTop x y = true ↔ keyOfOpt x < keyOfOpt y := by
  cases x <;> cases y <;>
    simp [optQLtTop, keyOfOpt, WithTop.coe_lt_top, WithTop.coe_lt_coe]

/-- `optQLeTop` agrees with the `WithTop` order. -/
theorem optQLeTop_iff (x y : Option ℚ) : optQLeTop x y = true ↔ keyOfOpt x ≤ keyOfOpt y := by
  cases x <;> cases y <;>
    simp [optQLeTop, keyOfOpt, WithTop.coe_le_coe, le_top, top_le_iff]

/-- `keyOfOpt` is injective. -/
theorem keyOfOpt_eq_iff (x y : Option ℚ) : keyOfOpt x = keyOfOpt y ↔ x = y := by
  cases x <;> cases y <;> simp [keyOfOpt]

/-- Primary sort key: estimated hours with missing values last. -/
def hoursKey (v : VariantCandidate) : WithTop ℚ := keyOfOpt v.estimatedHours

/-- Secondary sort key: estimated grams with missing values last. -/
def gramsKey (v : VariantCandidate) : WithTop ℚ := keyOfOpt v.estimatedGrams

/-- The sort comparator is the lexicographic order on `(hours, grams)`. -/
theorem variantLe_iff (a b : VariantCandidate) :
    variantLe a b = true ↔
      toLex (hoursKey a, gramsKey a) ≤ toLex (hoursKey b, gramsKey b) := by
  rw [Prod.Lex.le_iff]
  unfold variantLe
  by_cases h : a.estimatedHours = b.estimatedHours
  · have hk : hoursKey a = hoursKey b := by
      unfold hoursKey
      rw [keyOfOpt_eq_iff]
      exact h
    simp [h, hk, optQLeTop_iff, lt_irrefl, gramsKey]
  · have hk : keyOfOpt a.estimatedHours ≠ keyOfOpt b.estimatedHours := by
      rw [Ne, keyOfOpt_eq_iff]
      exact h
    simp [h, hk, optQLtTop_iff, hoursKey]

/-- The comparator relation used by the sort. -/
def variantRel (a b : VariantCandidate) : Prop := variantLe a b = true

instance : DecidableRel variantRel := fun a b => by
  unfold variantRel
  infer_instance

instance : IsTotal VariantCandidate variantRel :=
  ⟨by
    intro a b
    unfold variantRel
    rw [variantLe_iff, variantLe_iff]
    exact le_total _ _⟩

instance : IsTrans VariantCandidate variantRel :=
  ⟨by
    intro a b c hab hbc
    unfold variantRel at *
    rw [variantLe_iff] at *
    exact le_trans hab hbc⟩

/-- The sort is `insertionSort` under `variantRel`. -/
theorem scoreAndSortVariants_eq (l : List VariantCandidate) :
    scoreAndSortVariants l = List.insertionSort variantRel l := rfl

/-- The head of the sorted pool is `variantLe`-minimal over the input: the
first pool entry is a shortest-time one. -/
theorem head_min_scoreAndSortVariants (l : List VariantCandidate) (h0 : VariantCandidate)
    (hh : (scoreAndSortVariants l).head? = some h0) :
    ∀ v ∈ l, variantLe h0 v = true := by
  intro v hv
  have hsorted : List.Sorted variantRel (List.insertionSort variantRel l) :=
    List.sorted_insertionSort variantRel l
  have hperm : v ∈ List.insertionSort variantRel l :=
    ((List.perm_insertionSort variantRel l).mem_iff).mpr hv
  rw [scoreAndSortVariants_eq] at hh
  cases hsort : List.insertionSort variantRel l with
  | nil => rw [hsort] at hh; simp at hh
  | cons x t =>
    rw [hsort] at hh hperm hsorted
    simp only [List.head?_cons, Option.some_inj] at hh
    subst hh
    rcases List.mem_cons.mp hperm with hv0 | hvt
    · subst hv0
      rw [variantLe_iff]
    · exact List.rel_of_sorted_cons hsorted v hvt

/-! Claim theorems. -/

/-- Candidate used by the C1 counterexample: compatible printer, complete
metrics, shortest time. -/
def cexVariantA : VariantCandidate :=
  { variantId := some 1, profileId := some 11, name := "A", printer := "Bambu Lab P2S",
    material := "PLA Basic", estimatedHours := some 2, estimatedGrams := some 10,
    payload := .obj [], settingsSummary := {}, downloadUrl := none }

/-- Candidate used by the C1 counterexample: like `cexVariantA` but slower,
with ids 2/12. -/
def cexVariantB : VariantCandidate :=
  { cexVariantA with
    variantId := some 2
    profileId := some 12
    name := "B"
    estimatedHours := some 5 }

/-- C1 counterexample: in `finalizeResolvedData`, when a hash-requested id
(99) was given but is absent from the pool while the caller-supplied id (2)
is present, selection does NOT fall through to the caller-supplied id: the
strategy is `shortest_time_fallback` (selecting the shortest-time candidate,
id 1), not `user_selected_variant`, refuting the claimed precedence
fall-through at this input. -/
theorem C1_counterexample :
    (findVariantByRequestedId
      (scoreAndSortVariants (strictPool "P2S" [cexVariantA, cexVariantB])) 99).isNone = true ∧
    (findVariantByRequestedId
      (scoreAndSortVariants (strictPool "P2S" [cexVariantA, cexVariantB])) 2).map
        (fun v => v.variantId) = some (some 2) ∧
    pipelineStrategy
      (finalizeResolvedData "P2S" ⟨"u", "t", some 99, some 2, [cexVariantA, cexVariantB], []⟩) =
      some .shortestTimeFallback ∧
    pipelineSelectedVariantId
      (finalizeResolvedData "P2S" ⟨"u", "t", some 99, some 2, [cexVariantA, cexVariantB], []⟩) =
      some (some 1) ∧
    MakerWorldSelectionStrategy.shortestTimeFallback ≠ .userSelectedVariant := by
  refine ⟨by decide, ?_, by decide, by decide, by decide⟩
  rfl

/-- C1 (amended): selection from the duration-sorted pool follows the
precedence the code implements: (a) a hash-requested id found in the pool
wins with strategy `requested_variant_id`; (b) only when no hash-requested
id was given, a caller-supplied id found in the pool wins with strategy
`user_selected_variant`; (c) otherwise the first (shortest-time) pool entry
is selected with strategy `shortest_time_fallback`.  A given-but-absent
consulted id emits a warning and falls directly to (c) — an absent
hash-requested id never falls through to the caller-supplied id.  The final
conjunct certifies that the first entry of the sorted pool is minimal in
the `(hours, grams)` order over the input pool. -/
theorem C1_selection_precedence (pool : List VariantCandidate)
    (requestedId userId : Option Nat) (ws : List String) (hpool : pool ≠ []) :
    (∀ r v, requestedId = some r → findVariantByRequestedId pool r = some v →
      selectFromSortedPool pool requestedId userId ws =
        ⟨some v, .requestedVariantId, ws⟩) ∧
    (∀ r, requestedId = some r → findVariantByRequestedId pool r = none →
      selectFromSortedPool pool requestedId userId ws =
        ⟨pool.head?, .shortestTimeFallback, ws ++ [requestedUnavailableWarning]⟩) ∧
    (∀ u v, requestedId = none → userId = some u →
      findVariantByRequestedId pool u = some v →
      selectFromSortedPool pool requestedId userId ws =
        ⟨some v, .userSelectedVariant, ws⟩) ∧
    (∀ u, requestedId = none → userId = some u →
      findVariantByRequestedId pool u = none →
      selectFromSortedPool pool requestedId userId ws =
        ⟨pool.head?, .shortestTimeFallback, ws ++ [selectedUnavailableWarning]⟩) ∧
    (requestedId = none → userId = none →
      selectFromSortedPool pool requestedId userId ws =
        ⟨pool.head?, .shortestTimeFallback, ws⟩) ∧
    (∃ h0, pool.head? = some h0) ∧
    (∀ (l : List VariantCandidate) h0, (scoreAndSortVariants l).head? = some h0 →
      ∀ v ∈ l, variantLe h0 v = true) := by
  refine ⟨?_, ?_, ?_, ?_, ?_, ?_, head_min_scoreAndSortVariants⟩
  · intro r v hr hfind
    subst hr
    simp [selectFromSortedPool, hfind]
  · intro r hr hfind
    subst hr
    simp [selectFromSortedPool, hfind]
  · intro u v hr hu hfind
    subst hr; subst hu
    simp [selectFromSortedPool, hfind]
  · intro u hr hu hfind
    subst hr; subst hu
    simp [selectFromSortedPool, hfind]
  · intro hr hu
    subst hr; subst hu
    simp [selectFromSortedPool]
  · cases pool with
    | nil => exact absurd rfl hpool
    | cons x t => exact ⟨x, rfl⟩

/-- C1 witness: the amended precedence applied at a concrete pool — a
given-but-absent hash id (99) with a present caller id (2) selects the
shortest-time entry with a warning. -/
theorem C1_selection_precedence_witness :
    selectFromSortedPool [cexVariantA, cexVariantB] (some 99) (some 2) [] =
      ⟨some cexVariantA, .shortestTimeFallback, [requestedUnavailableWarning]⟩ := by
  have h :=
    (C1_selection_precedence [cexVariantA, cexVariantB] (some 99) (some 2) []
      (by simp)).2.1 99 rfl (by rfl)
  simpa using h

/-- C2: the implementation's `resolveMakerWorldModel` passes no per-call
request options to the design-service fetches — every upstream call runs
with the default 8000 ms timeout, 1 retry and the static headers — and
`downloadMakerWorldModelFile` has no options parameter at all (fixed
20000 ms timeout, process-wide byte cap), contradicting the documented
`options.request` / download-options contract the repository's docs and
tests specify. -/
theorem C2_options_not_forwarded :
    resolverApiCallOptions = none ∧
    effectiveTimeoutMs resolverApiCallOptions = API_TIMEOUT_MS ∧
    effectiveRetries resolverApiCallOptions = API_RETRY_COUNT ∧
    effectiveHeaders resolverApiCallOptions = apiHeaders ∧
    effectiveTimeoutMs
      (some ⟨some 3000, some 2, [("x-mw-test-client", "enabled")]⟩) = 3000 ∧
    effectiveTimeoutMs resolverApiCallOptions ≠ 3000 ∧
    effectiveRetries
      (some ⟨some 3000, some 2, [("x-mw-test-client", "enabled")]⟩) = 2 ∧
    (effectiveHeaders (some ⟨some 3000, some 2, [("x-mw-test-client", "enabled")]⟩)).find?
      (fun kv => kv.1 = "x-mw-test-client") = some ("x-mw-test-client", "enabled") ∧
    (effectiveHeaders resolverApiCallOptions).find?
      (fun kv => kv.1 = "x-mw-test-client") = none ∧
    MODEL_FETCH_TIMEOUT_MS = 20000 := by
  refine ⟨rfl, rfl, rfl, rfl, by norm_num [effectiveTimeoutMs], by norm_num [effectiveTimeoutMs, API_TIMEOUT_MS, resolverApiCallOptions], rfl, by decide, by decide, rfl⟩

/-- C7 counterexample: for the configured target `"!"` the canonical id of
the candidate `"!"` is empty and exactly matches an alias of the target's
alias set, yet `isCompatiblePrinterName` rejects it — the claimed
sufficient condition fails for empty canonicalizations. -/
theorem C7_counterexample :
    normalizePrinterName "!" = "" ∧
    normalizePrinterName "!" ∈ getCompatibleNormalizedPrinters "!" ∧
    isCompatiblePrinterName "!" "!" = false := by
  decide

/-- C7 (amended): provided the candidate's canonicalized name is non-empty,
a candidate whose canonical id exactly matches an alias of the target's
cluster-expanded alias set, or is a substring of an alias, or contains an
alias as a substring, is compatible; and concretely `"Bambu Lab P2S"` is
compatible with target `"P2S"` and with `"X1C"` (shared core-XY cluster),
while `"Creality Ender 3"` is not compatible with `"P2S"`. -/
theorem C7_printer_compatibility (cand target : String)
    (hne : normalizePrinterName cand ≠ "")
    (hex : ∃ al ∈ getCompatibleNormalizedPrinters target,
      normalizePrinterName cand = al ∨
      jsIncludes (normalizePrinterName cand) al = true ∨
      jsIncludes al (normalizePrinterName cand) = true) :
    isCompatiblePrinterName cand target = true ∧
    isCompatiblePrinterName "Bambu Lab P2S" "P2S" = true ∧
    isCompatiblePrinterName "Bambu Lab P2S" "X1C" = true ∧
    isCompatiblePrinterName "Creality Ender 3" "P2S" = false := by
  refine ⟨?_, by decide, by decide, by decide⟩
  unfold isCompatiblePrinterName
  obtain ⟨al, hmem, hcase⟩ := hex
  by_cases hempty : normalizePrinterName cand = ""
  · exact absurd hempty hne
  · simp only [hempty, if_false]
    by_cases hmemc : normalizePrinterName cand ∈ getCompatibleNormalizedPrinters target
    · simp [hmemc]
    · rcases hcase with heq | hsub | hsub2
      · exact absurd (heq ▸ hmem) hmemc
      · simp only [hmemc, if_false]
        exact List.any_eq_true.mpr ⟨al, hmem, by simp [hsub]⟩
      · simp only [hmemc, if_false]
        exact List.any_eq_true.mpr ⟨al, hmem, by simp [hsub2]⟩

/-- C7 witness: the amended compatibility condition applied at
`"Bambu Lab P2S"` versus target `"P2S"`. -/
theorem C7_printer_compatibility_witness :
    isCompatiblePrinterName "Bambu Lab P2S" "P2S" = true ∧
    normalizePrinterName "Bambu Lab P2S" ≠ "" :=
  ⟨(C7_printer_compatibility "Bambu Lab P2S" "P2S" (by decide) (by decide)).1, by decide⟩

/-- C5: the duration extractor interprets a positive numeric value by its
key, in the code's precedence order: a key containing `"ms"` divides by
3,600,000; otherwise a key containing `"second"`, `"prediction"`,
`"printtime"`, `"duration"` or `"costtime"` divides by 3600; otherwise a
`"minute"` key divides by 60; otherwise an `"hour"` key passes through;
a key carrying no unit token falls back to the magnitude heuristic
(≤ 72 hours, ≤ 7200 minutes, else seconds).  Concretely a numeric field
under key `prediction` equal to 60138 yields 16.705 hours (±0.001). -/
theorem C5_duration_units (q : ℚ) (k : String) (hq : 0 < q) :
    (jsIncludes (jsToLower k) "ms" = true →
      parseDurationHoursByKey k (.num q) = some (q / 3600000)) ∧
    (msKeyToken (jsToLower k) = false →
      (jsIncludes (jsToLower k) "second" = true ∨
       jsIncludes (jsToLower k) "prediction" = true ∨
       jsIncludes (jsToLower k) "printtime" = true ∨
       jsIncludes (jsToLower k) "duration" = true ∨
       jsIncludes (jsToLower k) "costtime" = true) →
      parseDurationHoursByKey k (.num q) = some (q / 3600)) ∧
    (msKeyToken (jsToLower k) = false → secondsKeyToken (jsToLower k) = false →
      jsIncludes (jsToLower k) "minute" = true →
      parseDurationHoursByKey k (.num q) = some (q / 60)) ∧
    (msKeyToken (jsToLower k) = false → secondsKeyToken (jsToLower k) = false →
      minutesKeyToken (jsToLower k) = false → jsIncludes (jsToLower k) "hour" = true →
      parseDurationHoursByKey k (.num q) = some q) ∧
    (msKeyToken (jsToLower k) = false → secondsKeyToken (jsToLower k) = false →
      minutesKeyToken (jsToLower k) = false → hoursKeyToken (jsToLower k) = false →
      parseDurationHoursByKey k (.num q) =
        some (if q ≤ 72 then q else if q ≤ 7200 then q / 60 else q / 3600)) ∧
    (parseDurationHoursByKey "prediction" (.num 60138) = some ((60138 : ℚ) / 3600) ∧
      |(60138 : ℚ) / 3600 - 16705 / 1000| ≤ 1 / 1000) := by
  refine ⟨?_, ?_, ?_, ?_, ?_, ?_, ?_⟩
  · intro hms
    simp [parseDurationHoursByKey, msKeyToken, hms, hq]
  · intro hms htok
    have hsec : secondsKeyToken (jsToLower k) = true := by
      unfold secondsKeyToken
      rcases htok with h | h | h | h | h <;> simp [h]
    simp [parseDurationHoursByKey, hms, hsec, hq]
  · intro hms hsec hmin
    have hminute : minutesKeyToken (jsToLower k) = true := by
      unfold minutesKeyToken
      simp [hmin]
    simp [parseDurationHoursByKey, hms, hsec, hminute, hq]
  · intro hms hsec hmin hhour
    have hh : hoursKeyToken (jsToLower k) = true := by
      unfold hoursKeyToken
      simp [hhour]
    simp [parseDurationHoursByKey, hms, hsec, hmin, hh, hq]
  · intro hms hsec hmin hhour
    simp only [parseDurationHoursByKey, hms, hsec, hmin, hhour, hq, parseDurationHours,
      if_true, if_false, Bool.false_eq_true, if_pos hq]
    split_ifs <;> rfl
  · have hms : msKeyToken (jsToLower "prediction") = false := by decide
    have hsec : secondsKeyToken (jsToLower "prediction") = true := by decide
    have hq2 : (0 : ℚ) < 60138 := by norm_num
    simp [parseDurationHoursByKey, hms, hsec, hq2]
  · norm_num

/-- C5 witness: a positive value under key `"ms"` is read as milliseconds. -/
theorem C5_duration_units_witness :
    0 < (36 : ℚ) ∧ jsIncludes (jsToLower "ms") "ms" = true ∧
    parseDurationHoursByKey "ms" (.num 36) = some ((36 : ℚ) / 3600000) :=
  ⟨by norm_num, by decide, (C5_duration_units 36 "ms" (by norm_num)).1 (by decide)⟩

/-- Run of `fetchApiJsonGo` across consecutive network failures: with every
attempt before the budget failing at network level and the final attempt
failing too, the loop returns the final classification (timeout for an
abort, network error otherwise). -/
theorem fetchApiJsonGo_netfail_run (b : Nat → AttemptBehavior) (retries : Nat) (a : Bool)
    (m : String) (hall : ∀ i, i < retries → ∃ a2 m2, b i = .netfail a2 m2)
    (hlast : b retries = .netfail a m) :
    ∀ fuel attempt, attempt + fuel = retries + 1 → attempt ≤ retries →
      fetchApiJsonGo b retries fuel attempt =
        .err ⟨(if a then .timeout else .networkError),
          (if a then "MakerWorld API request timed out."
           else "MakerWorld API request failed: " ++ m), none⟩ := by
  intro fuel
  induction fuel with
  | zero => intro attempt hsum hle; omega
  | succ fuel ih =>
    intro attempt hsum hle
    rcases Nat.lt_or_eq_of_le hle with hlt | heq
    · obtain ⟨a2, m2, hb⟩ := hall attempt hlt
      rw [fetchApiJsonGo, hb]
      simp only [Nat.not_le.mpr hlt, if_false]
      exact ih (attempt + 1) (by omega) (by omega)
    · subst heq
      rw [fetchApiJsonGo, hlast]
      simp

/-- C6: non-2xx API responses are mapped to reason codes immediately and
never retried (404 → not_found; 401/403/429 → upstream_blocked; 408/504 →
timeout; any other status → network_error) — the result depends only on the
first attempt, whatever the retry budget; retries happen only on
network-level failures, one sequential step per failure; and when every
attempt up to the budget fails at network level the final error is timeout
for an abort and network_error otherwise. -/
theorem C6_status_mapping_and_retries :
    ((mapHttpStatus 404).1 = .notFound ∧ (mapHttpStatus 401).1 = .upstreamBlocked ∧
     (mapHttpStatus 403).1 = .upstreamBlocked ∧ (mapHttpStatus 429).1 = .upstreamBlocked ∧
     (mapHttpStatus 408).1 = .timeout ∧ (mapHttpStatus 504).1 = .timeout ∧
     (∀ s, s ∉ ([404, 401, 403, 429, 408, 504] : List Nat) →
       (mapHttpStatus s).1 = .networkError)) ∧
    (∀ (b b2 : Nat → AttemptBehavior) (r r2 status : Nat) (body : String),
      b 0 = .http status body → b2 0 = b 0 → httpOk status = false →
      fetchApiJson b r =
        .err ⟨(mapHttpStatus status).1, (mapHttpStatus status).2, some status⟩ ∧
      fetchApiJson b r = fetchApiJson b2 r2) ∧
    (∀ (b : Nat → AttemptBehavior) (retries fuel attempt : Nat) (a : Bool) (m : String),
      attempt < retries → b attempt = .netfail a m →
      fetchApiJsonGo b retries (fuel + 1) attempt =
        fetchApiJsonGo b retries fuel (attempt + 1)) ∧
    (∀ (b : Nat → AttemptBehavior) (retries : Nat) (a : Bool) (m : String),
      (∀ i, i < retries → ∃ a2 m2, b i = .netfail a2 m2) → b retries = .netfail a m →
      fetchApiJson b retries =
        .err ⟨(if a then .timeout else .networkError),
          (if a then "MakerWorld API request timed out."
           else "MakerWorld API request failed: " ++ m), none⟩) := by
  refine ⟨⟨rfl, rfl, rfl, rfl, rfl, rfl, ?_⟩, ?_, ?_, ?_⟩
  · intro s hs
    simp only [List.mem_cons, List.mem_singleton, not_or] at hs
    obtain ⟨h1, h2, h3, h4, h5, h6, -⟩ := hs
    simp [mapHttpStatus, h1, h2, h3, h4, h5, h6]
  · intro b b2 r r2 status body hb hb2 hok
    have hone : ∀ (b3 : Nat → AttemptBehavior) (r3 : Nat), b3 0 = .http status body →
        fetchApiJson b3 r3 =
          .err ⟨(mapHttpStatus status).1, (mapHttpStatus status).2, some status⟩ := by
      intro b3 r3 hb3
      rw [fetchApiJson, fetchApiJsonGo, hb3]
      simp [hok]
    refine ⟨hone b r hb, ?_⟩
    rw [hone b r hb, hone b2 r2 (hb2.trans hb)]
  · intro b retries fuel attempt a m hlt hb
    rw [fetchApiJsonGo, hb]
    simp [Nat.not_le.mpr hlt]
  · intro b retries a m hall hlast
    exact fetchApiJsonGo_netfail_run b retries a m hall hlast (retries + 1) 0
      (by omega) (by omega)

/-- C6 witness: an HTTP 403 on the first attempt returns the
upstream-blocked mapping immediately, for any retry budget. -/
theorem C6_status_mapping_and_retries_witness :
    fetchApiJson (fun _ => .http 403 "x") 5 =
      .err ⟨(mapHttpStatus 403).1, (mapHttpStatus 403).2, some 403⟩ ∧
    fetchApiJson (fun _ => .http 403 "x") 5 = fetchApiJson (fun _ => .http 403 "x") 0 :=
  (C6_status_mapping_and_retries.2.1 (fun _ => .http 403 "x") (fun _ => .http 403 "x")
    5 0 403 "x" rfl rfl (by decide))

/-- C10: profile enrichment never overwrites an already-known value — ids
and name are untouched, a known printer or material, present metrics, a
non-empty settings summary, and a known download URL are preserved — and a
failed or non-record profile lookup leaves the candidate entirely
unchanged. -/
theorem C10_enrichment_preserves_known (cfg : String) (c : VariantCandidate)
    (r : JsApiResult) :
    (maybeEnrichWithProfile cfg c r).variantId = c.variantId ∧
    (maybeEnrichWithProfile cfg c r).profileId = c.profileId ∧
    (maybeEnrichWithProfile cfg c r).name = c.name ∧
    (c.printer ≠ "unknown" → (maybeEnrichWithProfile cfg c r).printer = c.printer) ∧
    (c.material ≠ "unknown" → (maybeEnrichWithProfile cfg c r).material = c.material) ∧
    (∀ h, c.estimatedHours = some h →
      (maybeEnrichWithProfile cfg c r).estimatedHours = some h) ∧
    (∀ g, c.estimatedGrams = some g →
      (maybeEnrichWithProfile cfg c r).estimatedGrams = some g) ∧
    (settingsSummaryNonEmpty c.settingsSummary = true →
      (maybeEnrichWithProfile cfg c r).settingsSummary = c.settingsSummary) ∧
    (∀ u, c.downloadUrl = some u → (maybeEnrichWithProfile cfg c r).downloadUrl = some u) ∧
    (∀ e, r = .err e → maybeEnrichWithProfile cfg c r = c) ∧
    (∀ d, r = .ok d → isRecord d = false → maybeEnrichWithProfile cfg c r = c) := by
  unfold maybeEnrichWithProfile
  cases hpid : c.profileId with
  | none => simp [hpid]
  | some pid =>
    by_cases hguard : hasCompleteMetrics c = true ∧ c.printer ≠ "unknown" ∧
        c.material ≠ "unknown"
    · simp [hpid, hguard]
    · simp only [hpid, hguard, if_false]
      cases r with
      | err e => simp [hpid]
      | ok d =>
        cases d with
        | obj fields =>
          refine ⟨rfl, rfl, rfl, ?_, ?_, ?_, ?_, ?_, ?_, ?_, ?_⟩
          · intro hp; simp [hp]
          · intro hm; simp [hm]
          · intro h hh; simp [hh]
          · intro g hg; simp [hg]
          · intro hset
            simp [hset]
          · intro u hu; simp [hu]
          · intro e he; cases he
          · intro d2 hd2 hrec; cases hd2; cases hrec
        | null => simp [isRecord, hpid]
        | bool b => simp [isRecord, hpid]
        | num q => simp [isRecord, hpid]
        | str s => simp [isRecord, hpid]
        | arr items => simp [isRecord, hpid]

/-- Candidate used by the C10 witness: known printer, known hours, unknown
material, no grams. -/
def c10Candidate : VariantCandidate :=
  { variantId := some 1, profileId := some 9, name := "N", printer := "X1C",
    material := "unknown", estimatedHours := some 2, estimatedGrams := none,
    payload := .obj [], settingsSummary := {}, downloadUrl := none }

/-- C10 witness: enrichment with a conflicting profile payload preserves
the candidate's known printer and hours. -/
theorem C10_enrichment_preserves_known_witness :
    c10Candidate.printer ≠ "unknown" ∧
    (maybeEnrichWithProfile "P2S" c10Candidate
      (.ok (.obj [("printerName", .str "Other"), ("material", .str "PETG")]))).printer =
      c10Candidate.printer ∧
    (maybeEnrichWithProfile "P2S" c10Candidate
      (.ok (.obj [("printerName", .str "Other"), ("material", .str "PETG")]))).estimatedHours =
      some 2 :=
  ⟨by decide,
   (C10_enrichment_preserves_known "P2S" c10Candidate
     (.ok (.obj [("printerName", .str "Other"), ("material", .str "PETG")]))).2.2.2.1
     (by decide),
   (C10_enrichment_preserves_known "P2S" c10Candidate
     (.ok (.obj [("printerName", .str "Other"), ("material", .str "PETG")]))).2.2.2.2.2.1
     2 rfl⟩

/-- C3: no behaviour of the upstream fetch primitives lets an exception
escape `resolveMakerWorldModel` — whenever the try-body faults with any
thrown message, the call still returns an outcome, a failure with reason
code `network_error` and the generic user-facing message, whose diagnostics
preserve everything collected up to the fault: the pipeline is kept, the
attempt log is extended by one `network_error` attempt under the last
attempted source, and every collected warning is retained. -/
theorem C3_unexpected_fault_contained (cfg : String) (env : ResolveEnv) (url : String)
    (opts : MakerWorldResolveOptionsImpl) (t : String) (d : MakerWorldDiagnostics)
    (hthrow : resolveBody cfg env url opts = .error (t, d)) :
    resolveMakerWorldModel cfg env url opts =
      toResolveFailure .networkError genericResolveFailureMessage (catchDiagnostics t d) ∧
    (resolveMakerWorldModel cfg env url opts).isOk = false ∧
    (resolveMakerWorldModel cfg env url opts).failureReason = some .networkError ∧
    (resolveMakerWorldModel cfg env url opts).failureMessage =
      some genericResolveFailureMessage ∧
    (resolveMakerWorldModel cfg env url opts).diagnosticsOf.pipeline = d.pipeline ∧
    (resolveMakerWorldModel cfg env url opts).diagnosticsOf.attempts =
      d.attempts ++
        [⟨d.pipeline.getLast?.getD .api, false, some .networkError, t⟩] ∧
    (∀ w ∈ d.warnings,
      w ∈ (resolveMakerWorldModel cfg env url opts).diagnosticsOf.warnings) := by
  have hr : resolveMakerWorldModel cfg env url opts =
      toResolveFailure .networkError genericResolveFailureMessage (catchDiagnostics t d) := by
    rw [resolveMakerWorldModel, hthrow]
  refine ⟨hr, ?_, ?_, ?_, ?_, ?_, ?_⟩ <;> rw [hr]
  · rfl
  · rfl
  · rfl
  · rfl
  · rfl
  · intro w hw
    show w ∈ (catchDiagnostics t d).warnings
    unfold catchDiagnostics
    simp only
    rw [mem_dedupList]
    exact List.mem_append_left _ hw

/-- Environment of the C3 witness: a healthy API payload whose incomplete
candidate triggers a profile-enrichment call that rejects unexpectedly. -/
def c3Env : ResolveEnv :=
  { design := Except.ok (.ok (.obj [("title", .str "Model 1001")]))
    instances := Except.ok (.ok (.obj
      [("instances", .arr [.obj [("profileId", .num 7), ("title", .str "V")]])]))
    profileOf := fun _ => Except.error "boom"
    instance3mf := fun _ => Except.ok (.err ⟨.networkError, "x", none⟩)
    designModel := Except.ok (.err ⟨.networkError, "x", none⟩)
    pageText := Except.error "ignored" }

/-- C3 witness: the containment applied at a concrete faulting
environment. -/
theorem C3_unexpected_fault_contained_witness :
    resolveMakerWorldModel "P2S" c3Env "https://makerworld.com/en/models/1001-test" {} =
      toResolveFailure .networkError genericResolveFailureMessage
        (catchDiagnostics "boom" emptyDiagnostics) :=
  (C3_unexpected_fault_contained "P2S" c3Env "https://makerworld.com/en/models/1001-test"
    {} "boom" emptyDiagnostics rfl).1

/-- Environment of the C4 403 scenario: both API endpoints answer HTTP 403
(fed through the `fetchApiJson` loop with the default retry budget) and the
fallback page carries no `__NEXT_DATA__` script tag. -/
def c4Env : ResolveEnv :=
  { design := Except.ok (fetchApiJson (fun _ => .http 403 "") API_RETRY_COUNT)
    instances := Except.ok (fetchApiJson (fun _ => .http 403 "") API_RETRY_COUNT)
    profileOf := fun _ => Except.ok (.err ⟨.networkError, "x", none⟩)
    instance3mf := fun _ => Except.ok (.err ⟨.networkError, "x", none⟩)
    designModel := Except.ok (.err ⟨.networkError, "x", none⟩)
    pageText := Except.ok "<html><body>no data</body></html>" }

/-- C4: when both stages fail without faulting, the resolver returns the
second (fallback) stage's reason code and message, with the two stages'
warnings merged and de-duplicated and the attempt log recording both
failures in stage order after the pipeline `[api, next_data]`; and
concretely, with both API endpoints answering HTTP 403 the fallback stage
is attempted and the diagnostics pipeline equals `["api", "next_data"]`. -/
theorem C4_both_stages_fail (cfg : String) (env : ResolveEnv) (url : String)
    (opts : MakerWorldResolveOptionsImpl) (n : NormalizedSource)
    (rc1 : MakerWorldReasonCode) (m1 : String) (w1 : List String)
    (rc2 : MakerWorldReasonCode) (m2 : String) (w2 : List String)
    (hnorm : normalizeSourceUrl url = .ok n)
    (hapi : resolveViaApi cfg env
      ⟨n.normalized, n.designId, n.requestedVariantId, userVariantIdOf opts⟩ =
      .ok (.fail rc1 m1 w1))
    (hfb : resolveViaNextData cfg env
      ⟨n.normalized, n.requestedVariantId, userVariantIdOf opts⟩ =
      .ok (.fail rc2 m2 w2)) :
    resolveMakerWorldModel cfg env url opts =
      toResolveFailure rc2 m2
        ⟨[.api, .nextData], dedupList (w1 ++ w2),
         [⟨.api, false, some rc1, m1⟩, ⟨.nextData, false, some rc2, m2⟩]⟩ ∧
    (resolveMakerWorldModel "P2S" c4Env
      "https://makerworld.com/en/models/1001-test" {}).diagnosticsOf.pipeline =
      [.api, .nextData] ∧
    (resolveMakerWorldModel "P2S" c4Env
      "https://makerworld.com/en/models/1001-test" {}).failureReason =
      some .malformedPayload ∧
    ((resolveMakerWorldModel "P2S" c4Env
      "https://makerworld.com/en/models/1001-test" {}).diagnosticsOf.attempts.map
        (fun a => (a.source, a.ok, a.reasonCode))) =
      [(.api, false, some .upstreamBlocked), (.nextData, false, some .malformedPayload)] := by
  refine ⟨?_, by decide, by decide, by decide⟩
  rw [resolveMakerWorldModel, resolveBody]
  rw [hnorm]
  simp only [hapi, hfb, emptyDiagnostics]
  simp [toResolveFailure]

/-- C4 witness: the both-stages-fail characterization applied at the
403-everywhere environment with a fallback page that exposes no
`__NEXT_DATA__`. -/
theorem C4_both_stages_fail_witness :
    resolveMakerWorldModel "P2S" c4Env "https://makerworld.com/en/models/1001-test" {} =
      toResolveFailure .malformedPayload
        "MakerWorld page did not expose __NEXT_DATA__ payload."
        ⟨[.api, .nextData], dedupList ([] ++ []),
         [⟨.api, false, some .upstreamBlocked, "MakerWorld blocked the request (403)."⟩,
          ⟨.nextData, false, some .malformedPayload,
            "MakerWorld page did not expose __NEXT_DATA__ payload."⟩]⟩ :=
  (C4_both_stages_fail "P2S" c4Env "https://makerworld.com/en/models/1001-test" {}
    ⟨"https://makerworld.com/en/models/1001-test", 1001, none⟩
    .upstreamBlocked "MakerWorld blocked the request (403)." []
    .malformedPayload "MakerWorld page did not expose __NEXT_DATA__ payload." []
    rfl rfl rfl).1

/-- The example `Content-Disposition` header value
`attachment; filename="part.3mf"`. -/
def cdPartExample : String :=
  "attachment; filename=" ++ String.singleton dquote ++ "part.3mf" ++ String.singleton dquote

/-- C8: the download filename is derived by priority content-disposition
header → URL path basename → literal fallback, and the extension by
priority explicit filename extension → final-URL extension → content-type
substring mapping (3mf/zip → 3mf, stl/sla → stl, obj → obj); when no rule
infers an extension the outcome is an `unsupported_model_format` failure,
and on success the extension is appended to the filename unless already its
suffix.  Concretely, a response with content-disposition filename
`part.3mf` and content-type `model/3mf` yields filename `part.3mf` and
extension `3mf`, and a response whose only signal is content-type
`text/plain` fails with `unsupported_model_format`. -/
theorem C8_download_filename_extension :
    (∀ (fetched : FetchedModelFile) (f : String),
      parseContentDispositionFilename fetched.contentDisposition = some f →
      jsTrim f ≠ "" → downloadBaseFilename fetched = jsTrim f) ∧
    (∀ (fetched : FetchedModelFile),
      parseContentDispositionFilename fetched.contentDisposition = none →
      downloadBaseFilename fetched =
        (if jsTrim (fileNameFromDownloadUrl fetched.finalUrl) = "" then "makerworld-model"
         else jsTrim (fileNameFromDownloadUrl fetched.finalUrl))) ∧
    (∀ u, parseUrl u = none → fileNameFromDownloadUrl u = "makerworld-model") ∧
    (∀ fn u ct e, normalizeModelExtension (some (extnameOf fn)) = some e →
      inferModelExtension fn u ct = some e) ∧
    (∀ fn u ct e, normalizeModelExtension (some (extnameOf fn)) = none →
      normalizeModelExtension (some (extnameOf (fileNameFromDownloadUrl u))) = some e →
      inferModelExtension fn u ct = some e) ∧
    (∀ fn u ct, normalizeModelExtension (some (extnameOf fn)) = none →
      normalizeModelExtension (some (extnameOf (fileNameFromDownloadUrl u))) = none →
      inferModelExtension fn u ct =
        (if jsIncludes (jsToLower (ct.getD "")) "3mf" ∨
            jsIncludes (jsToLower (ct.getD "")) "zip" then some .mf3
         else if jsIncludes (jsToLower (ct.getD "")) "stl" ∨
            jsIncludes (jsToLower (ct.getD "")) "sla" then some .stl
         else if jsIncludes (jsToLower (ct.getD "")) "obj" then some .obj
         else none)) ∧
    (∀ (fetched : FetchedModelFile),
      inferModelExtension (downloadBaseFilename fetched) fetched.finalUrl
        fetched.contentType = none →
      downloadOutcomeFromFetched fetched =
        .unavailable .unsupportedModelFormat
          "Could not detect STL/OBJ/3MF format from MakerWorld download.") ∧
    (∀ (fetched : FetchedModelFile) (ext : ModelExtension),
      inferModelExtension (downloadBaseFilename fetched) fetched.finalUrl
        fetched.contentType = some ext →
      downloadOutcomeFromFetched fetched =
        .downloaded fetched.buffer
          (if jsEndsWith (jsToLower (downloadBaseFilename fetched))
              ("." ++ modelExtensionLabel ext)
           then downloadBaseFilename fetched
           else downloadBaseFilename fetched ++ "." ++ modelExtensionLabel ext)
          ext fetched.contentType fetched.finalUrl) ∧
    downloadMakerWorldModelFile 52428800 "https://x.example/files/raw"
      (.response 200 none [] none (some "model/3mf") (some cdPartExample)) =
      .downloaded [] "part.3mf" .mf3 (some "model/3mf") "https://x.example/files/raw" ∧
    downloadMakerWorldModelFile 52428800 "https://makerworld.com/files/raw"
      (.response 200 none [] none (some "text/plain") none) =
      .unavailable .unsupportedModelFormat
        "Could not detect STL/OBJ/3MF format from MakerWorld download." := by
  refine ⟨?_, ?_, ?_, ?_, ?_, ?_, ?_, ?_, rfl, rfl⟩
  · intro fetched f hf hne
    simp [downloadBaseFilename, hf, hne]
  · intro fetched hf
    simp [downloadBaseFilename, hf]
  · intro u hu
    simp [fileNameFromDownloadUrl, hu]
  · intro fn u ct e he
    simp [inferModelExtension, he]
  · intro fn u ct e h1 h2
    simp [inferModelExtension, h1, h2]
  · intro fn u ct h1 h2
    simp [inferModelExtension, h1, h2]
  · intro fetched hnone
    simp [downloadOutcomeFromFetched, hnone]
  · intro fetched ext hext
    simp [downloadOutcomeFromFetched, hext]

/-- C8 witness: the header-priority clause applied at the concrete
`part.3mf` response. -/
theorem C8_download_filename_extension_witness :
    downloadBaseFilename ⟨[], "https://x.example/files/raw", some "model/3mf",
      some cdPartExample⟩ = jsTrim "part.3mf" ∧
    jsTrim "part.3mf" ≠ "" :=
  ⟨C8_download_filename_extension.1
    ⟨[], "https://x.example/files/raw", some "model/3mf", some cdPartExample⟩
    "part.3mf" rfl (by decide), by decide⟩

/-- String append of the empty string is the identity. -/
theorem str_append_empty (s : String) : s ++ "" = s := by
  cases s with
  | mk data =>
    show String.mk (data ++ []) = String.mk data
    rw [List.append_nil]

/-- Environment of the C9 witness: every upstream request rejects, so any
outcome other than the pre-network validation failure would surface as a
fault — the validation failure returning untouched diagnostics shows no
network call was made. -/
def c9Env : ResolveEnv :=
  { design := Except.error "unused"
    instances := Except.error "unused"
    profileOf := fun _ => Except.error "unused"
    instance3mf := fun _ => Except.error "unused"
    designModel := Except.error "unused"
    pageText := Except.error "unused" }

/-- What acceptance by `normalizeSourceUrl` entails: the URL parses, is
https on the MakerWorld domain with a model segment and a positive design
id, the requested variant id comes from the fragment, and the normalized
URL is the fragment-free serialisation. -/
theorem normalizeSourceUrl_ok_elim (input : String) (n : NormalizedSource)
    (hok : normalizeSourceUrl input = .ok n) :
    ∃ u, parseUrl input = some u ∧ urlProtocol u = "https:" ∧
      (jsToLower u.host = "makerworld.com" ∨
        jsEndsWith (jsToLower u.host) ".makerworld.com" = true) ∧
      pathHasModelSegment u.path = true ∧
      firstDesignId u.path = some n.designId ∧ 0 < n.designId ∧
      n.normalized = urlToString { u with fragment := "" } ∧
      n.requestedVariantId =
        (match hashProfileId u.fragment with
         | some k => if 0 < k then some k else none
         | none => none) := by
  unfold normalizeSourceUrl at hok
  cases hp : parseUrl input with
  | none => rw [hp] at hok; cases hok
  | some u =>
    rw [hp] at hok
    dsimp only at hok
    refine ⟨u, rfl, ?_⟩
    split at hok
    · cases hok
    · rename_i h1
      split at hok
      · cases hok
      · rename_i h2
        split at hok
        · cases hok
        · rename_i d hid
          split at hok
          · cases hok
          · rename_i h3
            cases hok
            push_neg at h1
            refine ⟨h1.1, h1.2, by simpa using h2, ?_, ?_, rfl, rfl⟩
            · simpa using hid
            · simpa using Nat.pos_of_ne_zero h3

/-- C9: every input failing URL validation (unparseable, non-https scheme,
host outside makerworld.com and its subdomains, no model path segment, or
no positive numeric design id) makes `resolveMakerWorldModel` return an
`invalid_url` failure whose value is independent of the network
environment — no network call is made; and every accepted input is
characterized by those conditions, with the requested variant id read from
a `profileId-<digits>` fragment and the fragment stripped from the
normalized URL (the serialisation omits the fragment component). -/
theorem C9_url_validation :
    (∀ input e, normalizeSourceUrl input = .error e → e.reasonCode = .invalidUrl) ∧
    (∀ (cfg : String) (env : ResolveEnv) (url : String)
        (opts : MakerWorldResolveOptionsImpl) (e : NormalizeFailure),
      normalizeSourceUrl url = .error e →
      resolveMakerWorldModel cfg env url opts =
        toResolveFailure e.reasonCode e.message
          ⟨[], [], [⟨.api, false, some e.reasonCode, e.message⟩]⟩) ∧
    (∀ input n, normalizeSourceUrl input = .ok n →
      ∃ u, parseUrl input = some u ∧ urlProtocol u = "https:" ∧
        (jsToLower u.host = "makerworld.com" ∨
          jsEndsWith (jsToLower u.host) ".makerworld.com" = true) ∧
        pathHasModelSegment u.path = true ∧
        firstDesignId u.path = some n.designId ∧ 0 < n.designId ∧
        n.normalized = urlToString { u with fragment := "" } ∧
        n.requestedVariantId =
          (match hashProfileId u.fragment with
           | some k => if 0 < k then some k else none
           | none => none)) ∧
    (∀ input, parseUrl input = none → ∃ e, normalizeSourceUrl input = .error e) ∧
    (∀ input u, parseUrl input = some u →
      (urlProtocol u ≠ "https:" ∨
        ¬ (jsToLower u.host = "makerworld.com" ∨
            jsEndsWith (jsToLower u.host) ".makerworld.com" = true) ∨
        pathHasModelSegment u.path = false ∨ firstDesignId u.path = none ∨
        firstDesignId u.path = some 0) →
      ∃ e, normalizeSourceUrl input = .error e) ∧
    (∀ u : UrlModel, urlToString { u with fragment := "" } =
      u.scheme ++ "://" ++ u.host ++ (if u.port = "" then "" else ":" ++ u.port) ++
        u.path ++ u.search) := by
  refine ⟨?_, ?_, ?_, ?_, ?_, ?_⟩
  · intro input e herr
    unfold normalizeSourceUrl at herr
    cases hp : parseUrl input with
    | none => rw [hp] at herr; cases herr; rfl
    | some u =>
      rw [hp] at herr
      dsimp only at herr
      split at herr
      · cases herr; rfl
      · split at herr
        · cases herr; rfl
        · split at herr
          · cases herr; rfl
          · split at herr
            · cases herr; rfl
            · cases herr
  · intro cfg env url opts e herr
    rw [resolveMakerWorldModel, resolveBody, herr]
    rfl
  · exact normalizeSourceUrl_ok_elim
  · intro input hp
    refine ⟨⟨.invalidUrl, "MakerWorld model page URL is required."⟩, ?_⟩
    unfold normalizeSourceUrl
    simp only [hp]
  · intro input u hp hbad
    cases hN : normalizeSourceUrl input with
    | error e => exact ⟨e, rfl⟩
    | ok n =>
      exfalso
      obtain ⟨u2, hp2, hproto, hhost, hseg, hid, hpos, -, -⟩ :=
        normalizeSourceUrl_ok_elim input n hN
      rw [hp] at hp2
      cases hp2
      rcases hbad with h | h | h | h | h
      · exact h hproto
      · exact h hhost
      · rw [hseg] at h; cases h
      · rw [hid] at h; cases h
      · rw [hid] at h
        injection h with h2
        omega
  · intro u
    simp [urlToString, str_append_empty]

/-- C9 witness: an `http` (non-https) URL fails validation with
`invalid_url`, independently of a network environment whose every request
would fault. -/
theorem C9_url_validation_witness :
    resolveMakerWorldModel "P2S" c9Env "http://makerworld.com/en/models/140" {} =
      toResolveFailure .invalidUrl "MakerWorld model page URL is required."
        ⟨[], [],
         [⟨.api, false, some .invalidUrl, "MakerWorld model page URL is required."⟩]⟩ :=
  C9_url_validation.2.1 "P2S" c9Env "http://makerworld.com/en/models/140" {}
    ⟨.invalidUrl, "MakerWorld model page URL is required."⟩ rfl

end MW
